import Mathlib

/-! paymentsvc: the payment service over its gateway client and its store.

A shallow embedding of `payment/payment.go` (the service and its data model),
`inmem/payment.go` (the in-memory repository), the method `getPayment` of
`handler/handler.go`, and the test doubles of `payment/payment_mock_test.go`
and `handler/handler_mock_test.go`.

Modelling conventions.

* A Go pointer that may be nil is an `Option`; a nil dereference is the
  outcome `panic`.  A Go result pair `(*T, error)` is `Outcome.ret val err`
  with both components optional, because Go lets a callee return any of the
  four combinations.
* Collaborators are stateful: every interface method takes the collaborator's
  state and returns the state it leaves.  `Create` receives a pointer, so its
  model also returns the pointee as it is after the call.
* Every run of a service method records the collaborator calls it makes, in
  order, so that "calls once", "never calls" and "calls in this order" are
  statements about a list.
* `time.Time` values are opaque instants (`Nat`, with `0` the zero value);
  `time.Now()` reads the head of a stream of instants.
* `int` and `int64` values are `Int`: the code only copies amounts, and the
  only arithmetic is the id counter `currentID + 1`, which cannot wrap before
  the map holds `2^63` records.
* The `sync.RWMutex` is not modelled: all runs are sequential.
* An HTTP response is the content type, the status code and the value handed
  to the JSON encoder; the encoding itself is not modelled.  `strconv.Atoi` is
  a parameter of the handler.
* The service over collaborators given by the two interfaces passes values:
  what a callee returns is the object its pointer points to at that moment.
  This is exact for collaborators that share no object with one another.
* The in-memory repository keeps the pointers it is handed, and the payments
  keep the pointers the gateway client returned.  For it the objects live in
  a memory of cells, pointers are addresses, and the gateway client may write
  to the charge objects it has handed out.
-/

set_option linter.dupNamespace false

set_option linter.unusedVariables false

namespace Paymentsvc

/-! ## Data model (`payment/payment.go`) -/

/-- Status represents a payment status: a Go string type. -/
abbrev Status := String

def StatusFailed : Status := "failed"

def StatusExpired : Status := "expired"

def StatusPending : Status := "pending"

def StatusReversed : Status := "reversed"

def StatusSuccessful : Status := "successful"

/-- Instants of `time.Time`; `0` is the zero value. -/
abbrev Time := Nat

/-- Go error values.  `paymentNotFound` is the sentinel `inmem.ErrPaymentNotFound`;
every other error value is told apart by its message. -/
inductive Error where
  | paymentNotFound
  | other (msg : String)
  deriving DecidableEq, Repr

/-- The text `err.Error()` gives. -/
def Error.Error : Error → String
  | .paymentNotFound => "payment not found"
  | .other msg => msg

/-- OmiseCharge represents the Omise charge object. -/
structure OmiseCharge where
  ID : String
  Status : Status
  Amount : Int
  Currency : String
  AuthorizeURI : String
  SourceType : String
  ReturnURI : String
  deriving DecidableEq, Repr

/-- Payment represents a payment; `OmiseCharge` is a pointer and may be nil. -/
structure Payment where
  ID : Int
  Status : Status
  Amount : Int
  Currency : String
  OmiseCharge : Option Paymentsvc.OmiseCharge
  CreatedAt : Time
  UpdatedAt : Time
  deriving DecidableEq, Repr

/-- Request contains details for making a payment. -/
structure Request where
  Amount : Int
  Currency : String
  ReturnURI : String
  SourceType : String
  deriving DecidableEq, Repr

/-- What a call returning `(*T, error)` does: it returns the pair, or it panics. -/
inductive Outcome (α : Type) where
  | ret (val : Option α) (err : Option Error)
  | panic
  deriving DecidableEq, Repr

/-- What a call returning `error` does: it returns the error (nil is `none`), or it panics. -/
inductive ErrOutcome where
  | ret (err : Option Error)
  | panic
  deriving DecidableEq, Repr

/-- Client provides methods for a payment gateway client; `κ` is the gateway's state. -/
structure Client (κ : Type) where
  Charge : Request → κ → Outcome OmiseCharge × κ
  GetCharge : String → κ → Outcome OmiseCharge × κ

/-- Repository provides access to a data source; `ρ` is the data source's state.
`Create` is handed a pointer: the first component of its answer is the pointee
after the call. -/
structure Repository (ρ : Type) where
  Create : Payment → ρ → (Payment × ErrOutcome) × ρ
  Find : Int → ρ → Outcome Payment × ρ
  UpdateStatus : Int → Status → ρ → ErrOutcome × ρ

/-- One call of the service on a collaborator. -/
inductive Call where
  | Charge (req : Request)
  | GetCharge (id : String)
  | Create (payment : Payment)
  | Find (id : Int)
  | UpdateStatus (id : Int) (status : Status)
  deriving DecidableEq, Repr

/-- A finished run of a service method: what it returned, the states it left
the two collaborators in, and the calls it made on them, in order. -/
structure Run (κ ρ : Type) where
  result : Outcome Payment
  client : κ
  repo : ρ
  calls : List Call

/-- The service: a gateway client and a repository. -/
structure service (κ ρ : Type) where
  client : Client κ
  repo : Repository ρ

/-- NewService returns a new payment service. -/
def NewService {κ ρ : Type} (client : Client κ) (repo : Repository ρ) : service κ ρ :=
  { client := client, repo := repo }

/-- CreatePaymentRequest creates a new payment request (`payment.go`, lines 86-104). -/
def service.CreatePaymentRequest {κ ρ : Type} (s : service κ ρ) (req : Request)
    (k : κ) (r : ρ) : Run κ ρ :=
  match s.client.Charge req k with
  | (.panic, k1) => ⟨.panic, k1, r, [.Charge req]⟩
  | (.ret _ (some err), k1) => ⟨.ret none (some err), k1, r, [.Charge req]⟩
  | (.ret none none, k1) => ⟨.panic, k1, r, [.Charge req]⟩
  | (.ret (some charge) none, k1) =>
    let payment : Payment :=
      { ID := 0, Status := charge.Status, Amount := charge.Amount,
        Currency := charge.Currency, OmiseCharge := some charge,
        CreatedAt := 0, UpdatedAt := 0 }
    match s.repo.Create payment r with
    | ((_, .panic), r1) => ⟨.panic, k1, r1, [.Charge req, .Create payment]⟩
    | ((_, .ret (some err)), r1) =>
      ⟨.ret none (some err), k1, r1, [.Charge req, .Create payment]⟩
    | ((created, .ret none), r1) =>
      ⟨.ret (some created) none, k1, r1, [.Charge req, .Create payment]⟩

/-- Find finds a payment with the given payment id in the data source.
If payment status is pending, it will fetch for the updated payment through
the payment client and store it in the data source (`payment.go`, lines
109-134; the test of line 115 reads `payment.OmiseCharge.Status`). -/
def service.Find {κ ρ : Type} (s : service κ ρ) (id : Int) (k : κ) (r : ρ) : Run κ ρ :=
  match s.repo.Find id r with
  | (.panic, r1) => ⟨.panic, k, r1, [.Find id]⟩
  | (.ret _ (some err), r1) => ⟨.ret none (some err), k, r1, [.Find id]⟩
  | (.ret none none, r1) => ⟨.panic, k, r1, [.Find id]⟩
  | (.ret (some payment) none, r1) =>
    match payment.OmiseCharge with
    | none => ⟨.panic, k, r1, [.Find id]⟩
    | some oc =>
      if oc.Status ≠ StatusPending then
        ⟨.ret (some payment) none, k, r1, [.Find id]⟩
      else
        match s.client.GetCharge oc.ID k with
        | (.panic, k1) => ⟨.panic, k1, r1, [.Find id, .GetCharge oc.ID]⟩
        | (.ret _ (some err), k1) =>
          ⟨.ret none (some err), k1, r1, [.Find id, .GetCharge oc.ID]⟩
        | (.ret none none, k1) => ⟨.panic, k1, r1, [.Find id, .GetCharge oc.ID]⟩
        | (.ret (some charge) none, k1) =>
          match s.repo.UpdateStatus id charge.Status r1 with
          | (.panic, r2) =>
            ⟨.panic, k1, r2,
              [.Find id, .GetCharge oc.ID, .UpdateStatus id charge.Status]⟩
          | (.ret (some err), r2) =>
            ⟨.ret none (some err), k1, r2,
              [.Find id, .GetCharge oc.ID, .UpdateStatus id charge.Status]⟩
          | (.ret none, r2) =>
            match s.repo.Find id r2 with
            | (.panic, r3) =>
              ⟨.panic, k1, r3,
                [.Find id, .GetCharge oc.ID, .UpdateStatus id charge.Status, .Find id]⟩
            | (.ret _ (some err), r3) =>
              ⟨.ret none (some err), k1, r3,
                [.Find id, .GetCharge oc.ID, .UpdateStatus id charge.Status, .Find id]⟩
            | (.ret found none, r3) =>
              ⟨.ret found none, k1, r3,
                [.Find id, .GetCharge oc.ID, .UpdateStatus id charge.Status, .Find id]⟩

/-! ## Memory: the objects behind the pointers

In Go the repository stores the `*Payment` it is handed, and a payment holds
the `*OmiseCharge` the gateway client returned: whoever holds such a pointer
reads and writes the same object.  Below, an object is a cell of a memory and
a pointer is the address of a cell. -/

/-- The address of an object in memory; a Go pointer is an `Option Ref`, nil
being `none`. -/
abbrev Ref := Nat

/-- A `Payment` struct in memory: the fields of `payment.Payment`, the field
`OmiseCharge` being a pointer. -/
structure PaymentObj where
  ID : Int
  Status : Status
  Amount : Int
  Currency : String
  OmiseCharge : Option Ref
  CreatedAt : Time
  UpdatedAt : Time
  deriving DecidableEq, Repr

/-- The zero value of `Payment`. -/
def PaymentObj.zero : PaymentObj :=
  { ID := 0, Status := "", Amount := 0, Currency := "", OmiseCharge := none,
    CreatedAt := 0, UpdatedAt := 0 }

/-- The `OmiseCharge` objects.  The gateway client allocates them: the
addresses below `next` are the ones it has allocated so far. -/
structure ChargeMem where
  cells : Ref → OmiseCharge
  next : Ref

/-- Client provides methods for a payment gateway client, with the pointers
explicit: a method gets the charge objects, may allocate charge objects and
write to them (the client keeps whatever pointers it likes), and returns a
pointer to a charge; `κ` is the rest of the gateway's state. -/
structure PtrClient (κ : Type) where
  Charge : Request → κ → ChargeMem → Outcome Ref × κ × ChargeMem
  GetCharge : String → κ → ChargeMem → Outcome Ref × κ × ChargeMem

/-! ## The in-memory repository (`inmem/payment.go`) -/

/-- ErrPaymentNotFound occurs when a payment with given id is not exists. -/
def ErrPaymentNotFound : Error := Error.paymentNotFound

/-- PaymentRepository provides access an in-memory data source: the id counter
and the map from ids to pointers to payments (`map[int]*payment.Payment`). -/
structure PaymentRepository where
  currentID : Int
  m : Int → Option Ref

/-- The instants the coming `time.Now()` calls will read, in order. -/
abbrev Clock := Nat → Time

/-- The clock after one `time.Now()`. -/
def Clock.tick (c : Clock) : Clock := fun n => c (n + 1)

/-- The in-memory repository in its surroundings: the payment objects (the
addresses below `nextPayment` are allocated), the charge objects, and the
clock the repository reads. -/
structure Env where
  repo : PaymentRepository
  payments : Ref → PaymentObj
  nextPayment : Ref
  charges : ChargeMem
  clock : Clock

/-- The payment a pointer points to, as a value: the fields of the object, and
under `OmiseCharge` the charge object its charge pointer points to. -/
def Env.payment (e : Env) (a : Ref) : Payment :=
  { ID := (e.payments a).ID, Status := (e.payments a).Status,
    Amount := (e.payments a).Amount, Currency := (e.payments a).Currency,
    OmiseCharge := (e.payments a).OmiseCharge.map e.charges.cells,
    CreatedAt := (e.payments a).CreatedAt, UpdatedAt := (e.payments a).UpdatedAt }

/-- The record the store holds under an id, as a value; `none` when the map
has no entry for the id. -/
def Env.record (e : Env) (id : Int) : Option Payment :=
  (e.repo.m id).map e.payment

/-- NewPaymentRepository returns a new payment repository: counter 0, empty map. -/
def NewPaymentRepository : PaymentRepository :=
  { currentID := 0, m := fun _ => none }

/-- Create creates a payment (`inmem/payment.go`, lines 29-39): it increments
the counter, writes the id and the instant through the pointer it is handed
(a nil pointer panics there), and stores that pointer under the id. -/
def PaymentRepository.Create (payment : Option Ref) (e : Env) : ErrOutcome × Env :=
  let currentID := e.repo.currentID + 1
  match payment with
  | none => (.panic, { e with repo := { e.repo with currentID := currentID } })
  | some a =>
    let now := e.clock 0
    (.ret none,
      { e with
        repo := { currentID := currentID,
                  m := fun key => if key = currentID then some a else e.repo.m key }
        payments := fun x =>
          if x = a then { e.payments a with ID := currentID, CreatedAt := now, UpdatedAt := now }
          else e.payments x
        clock := e.clock.tick })

/-- Find finds a payment with the given id (`inmem/payment.go`, lines 42-50):
it returns the stored pointer. -/
def PaymentRepository.Find (id : Int) (e : Env) : Outcome Ref × Env :=
  match e.repo.m id with
  | none => (.ret none (some ErrPaymentNotFound), e)
  | some a => (.ret (some a) none, e)

/-- UpdateStatus updates a payment status of a payment with the given payment id
(`inmem/payment.go`, lines 53-64): it writes the status through the stored
pointer, then through the charge pointer of that payment (a nil charge panics
there, the first write being made), then the instant. -/
def PaymentRepository.UpdateStatus (id : Int) (status : Status) (e : Env) : ErrOutcome × Env :=
  match e.repo.m id with
  | none => (.ret (some ErrPaymentNotFound), e)
  | some a =>
    match (e.payments a).OmiseCharge with
    | none =>
      (.panic,
        { e with
          payments := fun x =>
            if x = a then { e.payments a with Status := status } else e.payments x })
    | some b =>
      (.ret none,
        { e with
          payments := fun x =>
            if x = a then { e.payments a with Status := status, UpdatedAt := e.clock 0 }
            else e.payments x
          charges :=
            { cells := fun y =>
                if y = b then { e.charges.cells b with Status := status }
                else e.charges.cells y
              next := e.charges.next }
          clock := e.clock.tick })

/-! ## The service wired to the in-memory repository (`main.go`, lines 22-26) -/

/-- The service of `payment.go` whose `repo` is the in-memory repository, with
the pointers explicit; `client` is the gateway client. -/
structure memService (κ : Type) where
  client : PtrClient κ

/-- NewService, for the in-memory repository. -/
def NewMemService {κ : Type} (client : PtrClient κ) : memService κ :=
  { client := client }

/-- CreatePaymentRequest creates a new payment request (`payment.go`, lines
86-104).  `&Payment{...}` allocates the payment object at `nextPayment`; the
object keeps the pointer `charge` the client returned.  The result is the
payment the returned pointer points to when the method returns. -/
def memService.CreatePaymentRequest {κ : Type} (s : memService κ) (req : Request)
    (k : κ) (e : Env) : Run κ Env :=
  match s.client.Charge req k e.charges with
  | (.panic, k1, ch1) => ⟨.panic, k1, { e with charges := ch1 }, [.Charge req]⟩
  | (.ret _ (some err), k1, ch1) =>
    ⟨.ret none (some err), k1, { e with charges := ch1 }, [.Charge req]⟩
  | (.ret none none, k1, ch1) => ⟨.panic, k1, { e with charges := ch1 }, [.Charge req]⟩
  | (.ret (some charge) none, k1, ch1) =>
    let payment : Ref := e.nextPayment
    let e1 : Env :=
      { e with
        charges := ch1
        nextPayment := payment + 1
        payments := fun x =>
          if x = payment then
            { ID := 0, Status := (ch1.cells charge).Status, Amount := (ch1.cells charge).Amount,
              Currency := (ch1.cells charge).Currency, OmiseCharge := some charge,
              CreatedAt := 0, UpdatedAt := 0 }
          else e.payments x }
    match PaymentRepository.Create (some payment) e1 with
    | (.panic, e2) => ⟨.panic, k1, e2, [.Charge req, .Create (e1.payment payment)]⟩
    | (.ret (some err), e2) =>
      ⟨.ret none (some err), k1, e2, [.Charge req, .Create (e1.payment payment)]⟩
    | (.ret none, e2) =>
      ⟨.ret (some (e2.payment payment)) none, k1, e2,
        [.Charge req, .Create (e1.payment payment)]⟩

/-- Find finds a payment with the given payment id in the data source.
If payment status is pending, it will fetch for the updated payment through
the payment client and store it in the data source (`payment.go`, lines
109-134).  The test of line 115 reads the status of the charge object the
payment points to.  The result is the payment the returned pointer points to
when the method returns. -/
def memService.Find {κ : Type} (s : memService κ) (id : Int) (k : κ) (e : Env) : Run κ Env :=
  match PaymentRepository.Find id e with
  | (.panic, e1) => ⟨.panic, k, e1, [.Find id]⟩
  | (.ret _ (some err), e1) => ⟨.ret none (some err), k, e1, [.Find id]⟩
  | (.ret none none, e1) => ⟨.panic, k, e1, [.Find id]⟩
  | (.ret (some payment) none, e1) =>
    match (e1.payments payment).OmiseCharge with
    | none => ⟨.panic, k, e1, [.Find id]⟩
    | some oc =>
      if (e1.charges.cells oc).Status ≠ StatusPending then
        ⟨.ret (some (e1.payment payment)) none, k, e1, [.Find id]⟩
      else
        match s.client.GetCharge (e1.charges.cells oc).ID k e1.charges with
        | (.panic, k1, ch1) =>
          ⟨.panic, k1, { e1 with charges := ch1 },
            [.Find id, .GetCharge (e1.charges.cells oc).ID]⟩
        | (.ret _ (some err), k1, ch1) =>
          ⟨.ret none (some err), k1, { e1 with charges := ch1 },
            [.Find id, .GetCharge (e1.charges.cells oc).ID]⟩
        | (.ret none none, k1, ch1) =>
          ⟨.panic, k1, { e1 with charges := ch1 },
            [.Find id, .GetCharge (e1.charges.cells oc).ID]⟩
        | (.ret (some charge) none, k1, ch1) =>
          match PaymentRepository.UpdateStatus id (ch1.cells charge).Status
              { e1 with charges := ch1 } with
          | (.panic, e2) =>
            ⟨.panic, k1, e2,
              [.Find id, .GetCharge (e1.charges.cells oc).ID,
               .UpdateStatus id (ch1.cells charge).Status]⟩
          | (.ret (some err), e2) =>
            ⟨.ret none (some err), k1, e2,
              [.Find id, .GetCharge (e1.charges.cells oc).ID,
               .UpdateStatus id (ch1.cells charge).Status]⟩
          | (.ret none, e2) =>
            match PaymentRepository.Find id e2 with
            | (.panic, e3) =>
              ⟨.panic, k1, e3,
                [.Find id, .GetCharge (e1.charges.cells oc).ID,
                 .UpdateStatus id (ch1.cells charge).Status, .Find id]⟩
            | (.ret _ (some err), e3) =>
              ⟨.ret none (some err), k1, e3,
                [.Find id, .GetCharge (e1.charges.cells oc).ID,
                 .UpdateStatus id (ch1.cells charge).Status, .Find id]⟩
            | (.ret found none, e3) =>
              ⟨.ret (found.map e3.payment) none, k1, e3,
                [.Find id, .GetCharge (e1.charges.cells oc).ID,
                 .UpdateStatus id (ch1.cells charge).Status, .Find id]⟩

/-! ## The service over the in-memory repository, call after call -/

/-- One call on the service. -/
inductive Op where
  | CreatePaymentRequest (req : Request)
  | Find (id : Int)
  deriving DecidableEq, Repr

/-- The run of one service call over the in-memory repository. -/
def exec {κ : Type} (c : PtrClient κ) (op : Op) (w : κ × Env) : Run κ Env :=
  match op with
  | .CreatePaymentRequest req => (NewMemService c).CreatePaymentRequest req w.1 w.2
  | .Find id => (NewMemService c).Find id w.1 w.2

/-- The states one service call leaves behind. -/
def step {κ : Type} (c : PtrClient κ) (w : κ × Env) (op : Op) : κ × Env :=
  ((exec c op w).client, (exec c op w).repo)

/-- The states a sequence of service calls leaves behind. -/
def runOps {κ : Type} (c : PtrClient κ) (ops : List Op) (w : κ × Env) : κ × Env :=
  ops.foldl (step c) w

/-- A new repository with no payment object allocated, the charge objects the
gateway client has so far, and the clock the repository will read. -/
def NewEnv (clock : Clock) (charges : ChargeMem) : Env :=
  { repo := NewPaymentRepository, payments := fun _ => PaymentObj.zero, nextPayment := 0,
    charges := charges, clock := clock }

/-- The states the service can be in: those a finite sequence of calls reaches
from a new, empty repository, for some initial gateway state, charge objects
and clock. -/
def Reachable {κ : Type} (c : PtrClient κ) (w : κ × Env) : Prop :=
  ∃ (ops : List Op) (k0 : κ) (clock : Clock) (charges : ChargeMem),
    w = runOps c ops (k0, NewEnv clock charges)

/-- The gateway client with pointers that a value-returning client stands for
when, as `client/omise.go` does, it builds a new charge object for every
charge it returns and keeps no pointer to it: the object is allocated at
`next`, and no allocated object is written. -/
def Client.alloc {κ : Type} (c : Client κ) : PtrClient κ :=
  { Charge := fun req k ch =>
      match c.Charge req k with
      | (.panic, k1) => (.panic, k1, ch)
      | (.ret none err, k1) => (.ret none err, k1, ch)
      | (.ret (some v) err, k1) =>
        (.ret (some ch.next) err, k1,
          { cells := fun y => if y = ch.next then v else ch.cells y, next := ch.next + 1 })
    GetCharge := fun id k ch =>
      match c.GetCharge id k with
      | (.panic, k1) => (.panic, k1, ch)
      | (.ret none err, k1) => (.ret none err, k1, ch)
      | (.ret (some v) err, k1) =>
        (.ret (some ch.next) err, k1,
          { cells := fun y => if y = ch.next then v else ch.cells y, next := ch.next + 1 }) }

/-- The gateway client allocates a new charge object for every charge `Charge`
returns and never writes to a charge object once allocated. -/
def FreshClient {κ : Type} (c : PtrClient κ) : Prop :=
  (∀ (req : Request) (k : κ) (ch : ChargeMem),
      ch.next ≤ (c.Charge req k ch).2.2.next
      ∧ (∀ y : Ref, y < ch.next → (c.Charge req k ch).2.2.cells y = ch.cells y)
      ∧ (∀ (b : Ref) (err : Option Error), (c.Charge req k ch).1 = .ret (some b) err →
          ch.next ≤ b ∧ b < (c.Charge req k ch).2.2.next))
  ∧ (∀ (id : String) (k : κ) (ch : ChargeMem),
      ch.next ≤ (c.GetCharge id k ch).2.2.next
      ∧ (∀ y : Ref, y < ch.next → (c.GetCharge id k ch).2.2.cells y = ch.cells y))

/-! ## Test doubles (`payment/payment_mock_test.go`) -/

/-- The mock client: two function fields, no state. -/
structure mockClient where
  ChargeFn : Request → Outcome OmiseCharge
  GetChargeFn : String → Outcome OmiseCharge

/-- The mock client as a `Client`. -/
def mockClient.toClient (mc : mockClient) : Client Unit :=
  { Charge := fun req k => (mc.ChargeFn req, k)
    GetCharge := fun id k => (mc.GetChargeFn id, k) }

/-- The mock repository: three function fields, and the counter `FindCalledTimes`
as its state.  `FindFn` is a closure over the repository: it reads the counter. -/
structure mockRepository where
  CreateFn : Payment → Payment × ErrOutcome
  FindFn : Int → Nat → Outcome Payment
  UpdateStatusFn : Int → Status → ErrOutcome

/-- The mock repository as a `Repository`; `Find` increments `FindCalledTimes`
before it calls `FindFn`. -/
def mockRepository.toRepository (mr : mockRepository) : Repository Nat :=
  { Create := fun payment n => (mr.CreateFn payment, n)
    Find := fun id n => (mr.FindFn id (n + 1), n + 1)
    UpdateStatus := fun id status n => (mr.UpdateStatusFn id status, n) }

/-- The payment `CreatePaymentRequest` builds from a charge before it calls `Create`. -/
def paymentOf (charge : OmiseCharge) : Payment :=
  { ID := 0, Status := charge.Status, Amount := charge.Amount,
    Currency := charge.Currency, OmiseCharge := some charge,
    CreatedAt := 0, UpdatedAt := 0 }

/-! ## The five named statuses -/

/-- The status is one of the five constants of `payment.go`. -/
def IsKnownStatus (status : Status) : Prop :=
  status = StatusPending ∨ status = StatusSuccessful ∨ status = StatusFailed
    ∨ status = StatusExpired ∨ status = StatusReversed

instance (status : Status) : Decidable (IsKnownStatus status) := by
  unfold IsKnownStatus
  infer_instance

/-! ## The HTTP handler (`handler/handler.go`) -/

/-- Service provides payment service methods: the interface `payment.Service`
the handler depends on; `σ` is the state behind the service. -/
structure Service (σ : Type) where
  CreatePaymentRequest : Request → σ → Outcome Payment × σ
  Find : Int → σ → Outcome Payment × σ

/-- The status codes of `net/http` the handler uses. -/
def StatusOK : Nat := 200

def StatusBadRequest : Nat := 400

def StatusInternalServerError : Nat := 500

/-- The body of the answer to `GET /payments/{id}`. -/
structure handler.getPaymentResponse where
  ID : Int
  Status : Status
  Amount : Int
  Currency : String
  SourceType : String
  CreatedAt : Time
  UpdatedAt : Time
  deriving DecidableEq, Repr

/-- What is encoded as JSON into the body: the object with the one key
`message`, or a `getPaymentResponse`. -/
inductive handler.Body where
  | message (text : String)
  | payment (res : handler.getPaymentResponse)
  deriving DecidableEq, Repr

/-- What `respondJSON` writes: the content type header, the status code, the body. -/
structure handler.Response where
  contentType : String
  code : Nat
  body : handler.Body
  deriving DecidableEq, Repr

/-- The function respondJSON (`handler.go`, lines 114-118). -/
def handler.respondJSON (v : handler.Body) (code : Nat) : handler.Response :=
  { contentType := "application/json", code := code, body := v }

/-- The function respondError (`handler.go`, lines 120-122). -/
def handler.respondError (err : String) (code : Nat) : handler.Response :=
  handler.respondJSON (.message err) code

/-- A finished run of a handler method: the response written (`none` when the
handler panicked before writing one), the state left behind the service, and
the ids `service.Find` was called with, in order. -/
structure handler.Run (σ : Type) where
  response : Option handler.Response
  state : σ
  finds : List Int

/-- Payment represents a payment handler. -/
structure handler.Payment (σ : Type) where
  service : Service σ

/-- NewPayment returns a new payment handler. -/
def handler.NewPayment {σ : Type} (service : Service σ) : handler.Payment σ :=
  { service := service }

/-- The method getPayment (`handler.go`, lines 83-112).  `Atoi` is
`strconv.Atoi` of the Go standard library, `none` being its error; `idStr` is
the path segment `mux.Vars(r)["id"]`. -/
def handler.Payment.getPayment {σ : Type} (h : handler.Payment σ)
    (Atoi : String → Option Int) (idStr : String) (st : σ) : handler.Run σ :=
  match Atoi idStr with
  | none =>
    ⟨some (handler.respondError "payment id must be a number" StatusBadRequest), st, []⟩
  | some id =>
    match h.service.Find id st with
    | (.panic, st1) => ⟨none, st1, [id]⟩
    | (.ret _ (some err), st1) =>
      let code :=
        if err = ErrPaymentNotFound then StatusBadRequest else StatusInternalServerError
      ⟨some (handler.respondError err.Error code), st1, [id]⟩
    | (.ret none none, st1) => ⟨none, st1, [id]⟩
    | (.ret (some payment) none, st1) =>
      match payment.OmiseCharge with
      | none => ⟨none, st1, [id]⟩
      | some oc =>
        ⟨some (handler.respondJSON
            (.payment { ID := payment.ID, Status := payment.Status, Amount := payment.Amount,
                        Currency := payment.Currency, SourceType := oc.SourceType,
                        CreatedAt := payment.CreatedAt, UpdatedAt := payment.UpdatedAt })
            StatusOK), st1, [id]⟩

/-- The mock service of `handler/handler_mock_test.go`: two function fields, no state. -/
structure handler.mockService where
  CreatePaymentRequestFn : Request → Outcome Paymentsvc.Payment
  FindFn : Int → Outcome Paymentsvc.Payment

/-- The mock service as a `Service`. -/
def handler.mockService.toService (ms : handler.mockService) : Service Unit :=
  { CreatePaymentRequest := fun req st => (ms.CreatePaymentRequestFn req, st)
    Find := fun id st => (ms.FindFn id, st) }

/-- The payment service of `payment.go` as a `Service`: the state behind it is
the gateway's and the repository's. -/
def service.toService {κ ρ : Type} (s : service κ ρ) : Service (κ × ρ) :=
  { CreatePaymentRequest := fun req st =>
      ((s.CreatePaymentRequest req st.1 st.2).result,
        ((s.CreatePaymentRequest req st.1 st.2).client,
         (s.CreatePaymentRequest req st.1 st.2).repo))
    Find := fun id st =>
      ((s.Find id st.1 st.2).result, ((s.Find id st.1 st.2).client, (s.Find id st.1 st.2).repo)) }

/-- A model of `strconv.Atoi` for base-ten text: an optional sign, then one or
more digits `0-9`, the value within the range of a 64-bit `int`. -/
def Atoi (s : String) : Option Int :=
  let signed : Bool × List Char :=
    match s.data with
    | '-' :: ds => (true, ds)
    | '+' :: ds => (false, ds)
    | ds => (false, ds)
  if signed.2 = [] then none
  else if signed.2.all Char.isDigit then
    let n : Nat := signed.2.foldl (fun acc ch => 10 * acc + (ch.toNat - 48)) 0
    let v : Int := if signed.1 then -(n : Int) else (n : Int)
    if -(2 : Int) ^ 63 ≤ v ∧ v < (2 : Int) ^ 63 then some v else none
  else none

/-- The mock service of `TestPayment_getPayment`: `FindFn` returns the two
given values whatever the id; `CreatePaymentRequestFn` is left nil. -/
def getPaymentTestService (FindReturn : Option Payment) (FindErr : Option Error) :
    handler.mockService :=
  { CreatePaymentRequestFn := fun _ => .panic
    FindFn := fun _ => .ret FindReturn FindErr }

/-! ## Fixtures of `payment/payment_test.go` -/

/-- The request every test case sends. -/
def testRequest : Request :=
  { Amount := 20000, Currency := "THB", ReturnURI := "http://returnuri.com",
    SourceType := "internet_banking_scb" }

/-- The charge `charge-1` of the test cases, with the given status. -/
def testCharge (status : Status) : OmiseCharge :=
  { ID := "charge-1", Status := status, Amount := 20000, Currency := "THB",
    AuthorizeURI := "http://authuri.com", SourceType := "internet_banking_scb",
    ReturnURI := "http://returnuri.com" }

/-- The payment 1 of the test cases, with the given status, created at instant `now`. -/
def testPayment (status : Status) (now : Time) : Payment :=
  { ID := 1, Status := status, Amount := 20000, Currency := "THB",
    OmiseCharge := some (testCharge status), CreatedAt := now, UpdatedAt := now }

/-- The error `errSomeError` of the test cases. -/
def errSomeError : Error := Error.other "some error"

/-- The instant `now` of the test cases. -/
def testNow : Time := 7

/-- The charge a gateway returns that settles 19000 THB whatever amount was asked. -/
def feeCharge : OmiseCharge :=
  { ID := "charge-1", Status := StatusPending, Amount := 19000, Currency := "THB",
    AuthorizeURI := "http://authuri.com", SourceType := "internet_banking_scb",
    ReturnURI := "http://returnuri.com" }

/-- A gateway that answers every `Charge` with `feeCharge`. -/
def feeClient : mockClient :=
  { ChargeFn := fun _ => .ret (some feeCharge) none
    GetChargeFn := fun _ => .ret none (some errSomeError) }

/-- The mock repository of `TestService_CreatePaymentRequest`: `CreateFn` assigns
the id and the two instants and returns `repoReturnErr`. -/
def createTestRepository (paymentID : Int) (repoReturnErr : Option Error) : mockRepository :=
  { CreateFn := fun payment =>
      ({ payment with ID := paymentID, CreatedAt := testNow, UpdatedAt := testNow },
        .ret repoReturnErr)
    FindFn := fun _ _ => .panic
    UpdateStatusFn := fun _ _ => .panic }

/-- The mock client of `TestService_Find`: `GetChargeFn` returns the two given
values whatever the id; `ChargeFn` is left nil, so calling it panics. -/
def getChargeTestClient (getChargeReturn : Option OmiseCharge) (getChargeErr : Option Error) :
    mockClient :=
  { ChargeFn := fun _ => .panic
    GetChargeFn := fun _ => .ret getChargeReturn getChargeErr }

/-- The mock repository of `TestService_Find`: the k-th call of `Find` returns
`findReturns[k-1], findErrs[k-1]` (arrays of length two: a third call is out
of range), `UpdateStatusFn` returns `updateStatusErr` and writes nothing;
`CreateFn` is left nil. -/
def findTestRepository (findReturns : Option Payment × Option Payment)
    (findErrs : Option Error × Option Error) (updateStatusErr : Option Error) :
    mockRepository :=
  { CreateFn := fun payment => (payment, .panic)
    FindFn := fun _ findCalledTimes =>
      match findCalledTimes - 1 with
      | 0 => .ret findReturns.1 findErrs.1
      | 1 => .ret findReturns.2 findErrs.2
      | _ => .panic
    UpdateStatusFn := fun _ _ => .ret updateStatusErr }

/-- A record whose own status is terminal while its charge still says pending. -/
def stalePayment : Payment :=
  { testPayment StatusSuccessful testNow with OmiseCharge := some (testCharge StatusPending) }

/-- A record whose own status is pending while its charge is already successful. -/
def lagPayment : Payment :=
  { testPayment StatusPending testNow with OmiseCharge := some (testCharge StatusSuccessful) }

/-- A gateway whose `Charge` opens the pending charge `charge-1` for what the
request asks, and whose `GetCharge` reports that charge with the given status. -/
def settlingClient (status : Status) : mockClient :=
  { ChargeFn := fun req =>
      .ret (some { ID := "charge-1", Status := StatusPending, Amount := req.Amount,
                   Currency := req.Currency, AuthorizeURI := "http://authuri.com",
                   SourceType := req.SourceType, ReturnURI := req.ReturnURI }) none
    GetChargeFn := fun _ => .ret (some (testCharge status)) none }

/-- A clock that reads `testNow`, then one instant later at every reading. -/
def testClock : Clock := fun n => testNow + n

/-- The mock client of `TestService_CreatePaymentRequest`: `ChargeFn` builds a
charge from the request and returns it together with `clientReturnErr`;
`GetChargeFn` is left nil. -/
def chargeTestClient (paymentStatus : Status) (omiseChargeID authorizeURI : String)
    (clientReturnErr : Option Error) : mockClient :=
  { ChargeFn := fun req =>
      .ret (some { ID := omiseChargeID, Status := paymentStatus, Amount := req.Amount,
                   Currency := req.Currency, AuthorizeURI := authorizeURI,
                   SourceType := req.SourceType, ReturnURI := req.ReturnURI })
        clientReturnErr
    GetChargeFn := fun _ => .panic }

/-- A one-record store behind a connection that drops after a write.  The state
is the persisted status of payment 1 and whether the connection is up: `Find`
reads the record while the connection is up and fails afterwards,
`UpdateStatus` persists the status and the connection drops. -/
def droppingRepository : Repository (Status × Bool) :=
  { Create := fun payment st => ((payment, .ret (some errSomeError)), st)
    Find := fun _ st =>
      if st.2 then (.ret (some (testPayment st.1 testNow)) none, st)
      else (.ret none (some errSomeError), st)
    UpdateStatus := fun _ status _ => (.ret none, (status, false)) }

/-- A status string that is none of the five constants. -/
def unknownStatus : Status := "refunded"

/-! ## The in-memory service: helpers for statements -/

/-- The service over the in-memory repository as a `Service` for the handler:
the state behind it is the gateway's and the repository's. -/
def memService.toService {κ : Type} (s : memService κ) : Service (κ × Env) :=
  { CreatePaymentRequest := fun req st =>
      ((s.CreatePaymentRequest req st.1 st.2).result,
        ((s.CreatePaymentRequest req st.1 st.2).client,
         (s.CreatePaymentRequest req st.1 st.2).repo))
    Find := fun id st =>
      ((s.Find id st.1 st.2).result, ((s.Find id st.1 st.2).client, (s.Find id st.1 st.2).repo)) }

/-- The memory once `CreatePaymentRequest` has allocated its payment object for
the charge pointer `charge`, the charge objects being `ch1`. -/
def Env.allocated (e : Env) (ch1 : ChargeMem) (charge : Ref) : Env :=
  { e with
    charges := ch1
    nextPayment := e.nextPayment + 1
    payments := fun x =>
      if x = e.nextPayment then
        { ID := 0, Status := (ch1.cells charge).Status, Amount := (ch1.cells charge).Amount,
          Currency := (ch1.cells charge).Currency, OmiseCharge := some charge,
          CreatedAt := 0, UpdatedAt := 0 }
      else e.payments x }

/-- The memory once `UpdateStatus` has written `status` through the payment
pointer `a` and the charge pointer `b`. -/
def Env.updated (e : Env) (a b : Ref) (status : Status) : Env :=
  { e with
    payments := fun x =>
      if x = a then { e.payments a with Status := status, UpdatedAt := e.clock 0 }
      else e.payments x
    charges :=
      { cells := fun y =>
          if y = b then { e.charges.cells b with Status := status } else e.charges.cells y
        next := e.charges.next }
    clock := e.clock.tick }

/-- What holds of the store in every state the service reaches, whatever the
gateway client does: the counter is not negative, the keys are exactly
`1 .. currentID`, the pointer under key `i` is to an allocated payment object
whose `ID` is `i` and whose charge pointer is not nil. -/
def BaseInv (e : Env) : Prop :=
  0 ≤ e.repo.currentID
  ∧ (∀ i : Int, 1 ≤ i → i ≤ e.repo.currentID → ∃ a, e.repo.m i = some a)
  ∧ ∀ (i : Int) (a : Ref), e.repo.m i = some a →
      1 ≤ i ∧ i ≤ e.repo.currentID ∧ a < e.nextPayment ∧ (e.payments a).ID = i
      ∧ ∃ b : Ref, (e.payments a).OmiseCharge = some b

/-- What holds of the store in addition when the gateway client allocates a
new charge object for every charge and writes to none afterwards: the charge
of every stored payment is allocated and has the payment's status, and no two
stored payments point to one charge. -/
def FreshInv (e : Env) : Prop :=
  (∀ (i : Int) (a b : Ref), e.repo.m i = some a → (e.payments a).OmiseCharge = some b →
      b < e.charges.next ∧ (e.charges.cells b).Status = (e.payments a).Status)
  ∧ ∀ (i j : Int) (a1 a2 b : Ref), e.repo.m i = some a1 → e.repo.m j = some a2 →
      (e.payments a1).OmiseCharge = some b → (e.payments a2).OmiseCharge = some b → i = j

/-! ## Fixtures for the in-memory service -/

/-- The zero value of `OmiseCharge`. -/
def OmiseCharge.zero : OmiseCharge :=
  { ID := "", Status := "", Amount := 0, Currency := "", AuthorizeURI := "",
    SourceType := "", ReturnURI := "" }

/-- No charge object allocated yet. -/
def emptyCharges : ChargeMem := { cells := fun _ => OmiseCharge.zero, next := 0 }

/-- The service over a new, empty in-memory repository. -/
def newWorld : Unit × Env := ((), NewEnv testClock emptyCharges)

/-- The state after one `CreatePaymentRequest(testRequest)` with a gateway that
builds a new charge for every answer: payment 1 is stored, pending. -/
def afterCreate : Unit × Env :=
  runOps (settlingClient StatusSuccessful).toClient.alloc [.CreatePaymentRequest testRequest]
    newWorld

/-- Payment 1 as the store holds it once `Find(1)` has seen the gateway report
"successful": updated at the second reading of the clock. -/
def settledPayment : Payment :=
  { testPayment StatusSuccessful testNow with UpdatedAt := testNow + 1 }

/-! ## Gateway clients that keep their charge objects -/

/-- The charge objects of a gateway client that has built one charge, the
pending `charge-1`, and keeps the pointer to it. -/
def sharedCharges : ChargeMem :=
  { cells := fun y => if y = 0 then testCharge StatusPending else OmiseCharge.zero, next := 1 }

/-- A gateway client whose `Charge` returns the pointer to the one charge
object it keeps, every time; its first `GetCharge` reports a new charge with
status "successful", every later `GetCharge` fails.  Its state counts the
`GetCharge` calls. -/
def sharingClient : PtrClient Nat :=
  { Charge := fun _ k ch => (.ret (some 0) none, k, ch)
    GetCharge := fun _ k ch =>
      if k = 0 then
        (.ret (some ch.next) none, k + 1,
          { cells := fun y => if y = ch.next then testCharge StatusSuccessful else ch.cells y,
            next := ch.next + 1 })
      else (.ret none (some errSomeError), k + 1, ch) }

/-- The state after two `CreatePaymentRequest` with `sharingClient`: payments 1
and 2 are stored, pending, and point to one charge object. -/
def afterSharedCreates : Nat × Env :=
  runOps sharingClient [.CreatePaymentRequest testRequest, .CreatePaymentRequest testRequest]
    (0, NewEnv testClock sharedCharges)

/-- The state after `Find(1)` in `afterSharedCreates`. -/
def afterSharedFind : Nat × Env :=
  runOps sharingClient [.Find 1] afterSharedCreates

/-- A gateway client that keeps one charge object for the charge it opens:
every `Charge` writes the new pending charge into that object and returns the
pointer to it.  Its first `GetCharge` reports a new charge with status
"successful", every later one a new charge with status "failed".  Its state
counts the `GetCharge` calls. -/
def reusingClient : PtrClient Nat :=
  { Charge := fun req k ch =>
      (.ret (some 0) none, k,
        { cells := fun y =>
            if y = 0 then
              { ID := "charge-1", Status := StatusPending, Amount := req.Amount,
                Currency := req.Currency, AuthorizeURI := "http://authuri.com",
                SourceType := req.SourceType, ReturnURI := req.ReturnURI }
            else ch.cells y
          next := ch.next })
    GetCharge := fun _ k ch =>
      (.ret (some ch.next) none, k + 1,
        { cells := fun y =>
            if y = ch.next then
              testCharge (if k = 0 then StatusSuccessful else StatusFailed)
            else ch.cells y
          next := ch.next + 1 }) }

/-- The state after `CreatePaymentRequest` and `Find(1)` with `reusingClient`:
payment 1 is stored with status "successful". -/
def afterReusedFind : Nat × Env :=
  runOps reusingClient [.CreatePaymentRequest testRequest, .Find 1]
    (0, NewEnv testClock sharedCharges)

/-! ## Statuses the gateway reports -/

/-- The gateway client reports only the five named statuses: every charge it
returns without error, from `Charge` or from `GetCharge`, has one of them when
it is returned. -/
def ReportsKnownStatuses {κ : Type} (c : PtrClient κ) : Prop :=
  (∀ (req : Request) (k k1 : κ) (ch ch1 : ChargeMem) (charge : Ref),
      c.Charge req k ch = (.ret (some charge) none, k1, ch1) →
      IsKnownStatus (ch1.cells charge).Status)
  ∧ (∀ (id : String) (k k1 : κ) (ch ch1 : ChargeMem) (charge : Ref),
      c.GetCharge id k ch = (.ret (some charge) none, k1, ch1) →
      IsKnownStatus (ch1.cells charge).Status)

/-- Every stored payment has one of the five named statuses. -/
def KnownInv (e : Env) : Prop :=
  ∀ (i : Int) (a : Ref), e.repo.m i = some a → IsKnownStatus (e.payments a).Status

/-! ## The in-memory repository on its own, call after call -/

/-- One call on the in-memory repository; `Create` is handed a pointer to a
payment object. -/
inductive RepoCall where
  | Create (payment : Ref)
  | Find (id : Int)
  | UpdateStatus (id : Int) (status : Status)
  deriving DecidableEq, Repr

/-- The repository, the objects and the clock one call leaves behind. -/
def repoStep (e : Env) : RepoCall → Env
  | .Create payment => (PaymentRepository.Create (some payment) e).2
  | .Find id => (PaymentRepository.Find id e).2
  | .UpdateStatus id status => (PaymentRepository.UpdateStatus id status e).2

/-- The repository, the objects and the clock a sequence of calls leaves behind. -/
def repoRun (calls : List RepoCall) (e : Env) : Env :=
  calls.foldl repoStep e

/-- The number of `Create` calls in a sequence of calls. -/
def createCount : List RepoCall → Nat
  | [] => 0
  | .Create _ :: rest => createCount rest + 1
  | .Find _ :: rest => createCount rest
  | .UpdateStatus _ _ :: rest => createCount rest

/-- The pointers the `Create` calls of a sequence of calls were handed, in order. -/
def createdRefs : List RepoCall → List Ref
  | [] => []
  | .Create payment :: rest => payment :: createdRefs rest
  | .Find _ :: rest => createdRefs rest
  | .UpdateStatus _ _ :: rest => createdRefs rest

/-- The keys of the store once `Create` has been handed the pointers `created`:
the counter is their number `n`, exactly the keys in `1 .. n` hold a pointer,
every stored pointer is one of `created`, and when `created` has no pointer
twice the payment under key `k` has `ID = k`. -/
def KeysInv (created : List Ref) (e : Env) : Prop :=
  e.repo.currentID = (created.length : Int)
  ∧ (∀ k : Int, 1 ≤ k → k ≤ (created.length : Int) → ∃ a, e.repo.m k = some a)
  ∧ (∀ k : Int, (k < 1 ∨ (created.length : Int) < k) → e.repo.m k = none)
  ∧ (∀ (k : Int) (a : Ref), e.repo.m k = some a → a ∈ created)
  ∧ (created.Nodup → ∀ (k : Int) (a : Ref), e.repo.m k = some a → (e.payments a).ID = k)

/-- Three payment objects a caller of the repository has built, each pending
and with a charge object of its own, and a new repository. -/
def repoTestEnv : Env :=
  { repo := NewPaymentRepository
    payments := fun x =>
      { ID := 0, Status := StatusPending, Amount := 20000, Currency := "THB",
        OmiseCharge := some x, CreatedAt := 0, UpdatedAt := 0 }
    nextPayment := 3
    charges := { cells := fun _ => testCharge StatusPending, next := 3 }
    clock := testClock }

/-- A sequence of calls on the repository: one `Create`, one `Find`, one
`UpdateStatus`. -/
def sampleCalls : List RepoCall :=
  [.Create 0, .Find 1, .UpdateStatus 1 StatusSuccessful]

/-- The repository after `sampleCalls`. -/
def sampleEnv : Env := repoRun sampleCalls repoTestEnv

/-- The store after `Create` was handed a payment object that has no charge:
key 1 holds a record whose charge pointer is nil. -/
def afterChargelessCreate : Env :=
  repoRun [.Create 0] (NewEnv testClock emptyCharges)

/-! ## Theorems -/

/-- C1: when `Charge(req)` returns a charge `c` and no error, and `Create`
returns no error having assigned the id and the two instants through the
pointer, `CreatePaymentRequest(req)` returns `(p, nil)` where `p` has the
status, amount and currency of `c` (whatever the request asked for), holds `c`
itself as its charge, and carries exactly the id and instants that `Create`
assigned; the calls are one `Charge` and one `Create`. -/
theorem CreatePaymentRequest_success {κ ρ : Type} (client : Client κ) (repo : Repository ρ)
    (req : Request) (c : OmiseCharge) (k k1 : κ) (r r1 : ρ)
    (id : Int) (createdAt updatedAt : Time)
    (hcharge : client.Charge req k = (.ret (some c) none, k1))
    (hcreate : repo.Create
        { ID := 0, Status := c.Status, Amount := c.Amount, Currency := c.Currency,
          OmiseCharge := some c, CreatedAt := 0, UpdatedAt := 0 } r
      = (({ ID := id, Status := c.Status, Amount := c.Amount, Currency := c.Currency,
            OmiseCharge := some c, CreatedAt := createdAt, UpdatedAt := updatedAt },
          .ret none), r1)) :
    ∃ p : Payment,
      ((NewService client repo).CreatePaymentRequest req k r).result = .ret (some p) none
      ∧ p.Status = c.Status ∧ p.Amount = c.Amount ∧ p.Currency = c.Currency
      ∧ p.OmiseCharge = some c
      ∧ p.ID = id ∧ p.CreatedAt = createdAt ∧ p.UpdatedAt = updatedAt
      ∧ ((NewService client repo).CreatePaymentRequest req k r).calls
          = [.Charge req,
             .Create { ID := 0, Status := c.Status, Amount := c.Amount, Currency := c.Currency,
                       OmiseCharge := some c, CreatedAt := 0, UpdatedAt := 0 }] := by
  refine ⟨{ ID := id, Status := c.Status, Amount := c.Amount, Currency := c.Currency,
            OmiseCharge := some c, CreatedAt := createdAt, UpdatedAt := updatedAt }, ?_⟩
  simp [service.CreatePaymentRequest, NewService, hcharge, hcreate]

/-- Witness of C1: the gateway settles 19000 THB for a request of 20000 THB, and
the payment carries the gateway's amount and the id 1 the repository assigned. -/
theorem CreatePaymentRequest_success_witness :
    ∃ p : Payment,
      ((NewService feeClient.toClient (createTestRepository 1 none).toRepository
          ).CreatePaymentRequest testRequest () 0).result = .ret (some p) none
      ∧ p.Status = feeCharge.Status ∧ p.Amount = feeCharge.Amount
      ∧ p.Currency = feeCharge.Currency ∧ p.OmiseCharge = some feeCharge
      ∧ p.ID = 1 ∧ p.CreatedAt = testNow ∧ p.UpdatedAt = testNow
      ∧ ((NewService feeClient.toClient (createTestRepository 1 none).toRepository
          ).CreatePaymentRequest testRequest () 0).calls
          = [.Charge testRequest,
             .Create { ID := 0, Status := feeCharge.Status, Amount := feeCharge.Amount,
                       Currency := feeCharge.Currency, OmiseCharge := some feeCharge,
                       CreatedAt := 0, UpdatedAt := 0 }] :=
  CreatePaymentRequest_success feeClient.toClient (createTestRepository 1 none).toRepository
    testRequest feeCharge () () 0 0 1 testNow testNow rfl rfl

/-- C9: `CreatePaymentRequest` returns the error `e` exactly when `Charge`
returns `e`, or `Charge` returns a charge without error and `Create`, called on
the payment built from that charge, returns `e`; with an error the returned
payment is nil.  When `Charge` returns an error the only call is `Charge`, so
`Create` is not called and the repository is left as it was.  In every run
`Charge` is called once, first, and `Create` at most once. -/
theorem CreatePaymentRequest_error {κ ρ : Type} (client : Client κ) (repo : Repository ρ)
    (req : Request) (k : κ) (r : ρ) :
    (∀ e : Error,
      (∃ val, ((NewService client repo).CreatePaymentRequest req k r).result
          = .ret val (some e))
      ↔ ((∃ val k1, client.Charge req k = (.ret val (some e), k1))
          ∨ (∃ c k1 created r1, client.Charge req k = (.ret (some c) none, k1)
              ∧ repo.Create (paymentOf c) r = ((created, .ret (some e)), r1))))
    ∧ (∀ val e, ((NewService client repo).CreatePaymentRequest req k r).result
          = .ret val (some e) → val = none)
    ∧ (∀ val e k1, client.Charge req k = (.ret val (some e), k1) →
        ((NewService client repo).CreatePaymentRequest req k r).result = .ret none (some e)
        ∧ ((NewService client repo).CreatePaymentRequest req k r).calls = [.Charge req]
        ∧ ((NewService client repo).CreatePaymentRequest req k r).repo = r)
    ∧ (((NewService client repo).CreatePaymentRequest req k r).calls = [.Charge req]
        ∨ ∃ payment, ((NewService client repo).CreatePaymentRequest req k r).calls
            = [.Charge req, .Create payment]) := by
  rcases hc : client.Charge req k with ⟨o, k1⟩
  cases o with
  | panic => simp [service.CreatePaymentRequest, NewService, hc]
  | ret val err =>
    cases err with
    | some e0 =>
      simp [service.CreatePaymentRequest, NewService, hc]
    | none =>
      cases val with
      | none => simp [service.CreatePaymentRequest, NewService, hc]
      | some c =>
        rcases hcr : repo.Create (paymentOf c) r with ⟨⟨created, oc⟩, r1⟩
        have hcr2 := hcr
        simp only [paymentOf] at hcr2
        cases oc with
        | panic => simp [service.CreatePaymentRequest, NewService, hc, hcr2, hcr]
        | ret err =>
          cases err with
          | none => simp [service.CreatePaymentRequest, NewService, hc, hcr2, hcr]
          | some e1 =>
            simp [service.CreatePaymentRequest, NewService, hc, hcr2, hcr]

/-- Witness of C9: the test cases "client Error" (the gateway returns a charge
together with `errSomeError`: no `Create`, repository untouched) and
"repository Error" (`Create` returns `errSomeError`). -/
theorem CreatePaymentRequest_error_witness :
    (((NewService (chargeTestClient StatusPending "" "" (some errSomeError)).toClient
          (createTestRepository 0 none).toRepository).CreatePaymentRequest testRequest () 0
        ).result = .ret none (some errSomeError)
      ∧ ((NewService (chargeTestClient StatusPending "" "" (some errSomeError)).toClient
          (createTestRepository 0 none).toRepository).CreatePaymentRequest testRequest () 0
        ).calls = [.Charge testRequest]
      ∧ ((NewService (chargeTestClient StatusPending "" "" (some errSomeError)).toClient
          (createTestRepository 0 none).toRepository).CreatePaymentRequest testRequest () 0
        ).repo = 0)
    ∧ (∃ val,
        ((NewService
            (chargeTestClient StatusPending "charge-1" "http://authuri.com" none).toClient
            (createTestRepository 0 (some errSomeError)).toRepository
          ).CreatePaymentRequest testRequest () 0).result = .ret val (some errSomeError)) :=
  ⟨(CreatePaymentRequest_error
      (chargeTestClient StatusPending "" "" (some errSomeError)).toClient
      (createTestRepository 0 none).toRepository testRequest () 0).2.2.1
      _ errSomeError () rfl,
   ((CreatePaymentRequest_error
      (chargeTestClient StatusPending "charge-1" "http://authuri.com" none).toClient
      (createTestRepository 0 (some errSomeError)).toRepository testRequest () 0).1
      errSomeError).2
      (Or.inr ⟨testCharge StatusPending, (), _, 0, rfl, rfl⟩)⟩

/-- C10 fails as stated: payment 1 is persisted as pending, the gateway reports
"successful", `UpdateStatus` succeeds and the second `Find` fails with
`errSomeError`.  The service returns `(nil, errSomeError)`, but the persisted
status is now "successful": the write is not undone. -/
theorem Find_second_lookup_error_counterexample :
    droppingRepository.Find 1 (StatusPending, true)
        = (.ret (some (testPayment StatusPending testNow)) none, (StatusPending, true))
    ∧ (settlingClient StatusSuccessful).toClient.GetCharge "charge-1" ()
        = (.ret (some (testCharge StatusSuccessful)) none, ())
    ∧ droppingRepository.UpdateStatus 1 StatusSuccessful (StatusPending, true)
        = (.ret none, (StatusSuccessful, false))
    ∧ droppingRepository.Find 1 (StatusSuccessful, false)
        = (.ret none (some errSomeError), (StatusSuccessful, false))
    ∧ ((NewService (settlingClient StatusSuccessful).toClient droppingRepository).Find 1 ()
          (StatusPending, true)).result = .ret none (some errSomeError)
    ∧ ((NewService (settlingClient StatusSuccessful).toClient droppingRepository).Find 1 ()
          (StatusPending, true)).repo ≠ (StatusPending, true)
    ∧ ((NewService (settlingClient StatusSuccessful).toClient droppingRepository).Find 1 ()
          (StatusPending, true)).repo.1 = StatusSuccessful := by
  refine ⟨rfl, rfl, rfl, rfl, rfl, ?_, rfl⟩
  decide

/-- C10, amended: in `service.Find(id)` on a payment whose charge is pending,
after `GetCharge` has returned a charge `c`: if `UpdateStatus(id, c.Status)`
returns an error `e`, the service returns `(nil, e)`, calls nothing after the
failed `UpdateStatus`, and leaves the repository as that call left it; if
`UpdateStatus` returns nil and the second `Find(id)` returns an error `e`, the
service returns `(nil, e)`, calls nothing after the failed `Find`, and leaves
the repository as that `Find` left it: what `UpdateStatus` wrote stays written. -/
theorem Find_downstream_error {κ ρ : Type} (client : Client κ) (repo : Repository ρ)
    (id : Int) (k k1 : κ) (r r1 : ρ) (p : Payment) (oc c : OmiseCharge)
    (hfind : repo.Find id r = (.ret (some p) none, r1))
    (hcharge : p.OmiseCharge = some oc)
    (hpending : oc.Status = StatusPending)
    (hget : client.GetCharge oc.ID k = (.ret (some c) none, k1)) :
    (∀ (e : Error) (r2 : ρ), repo.UpdateStatus id c.Status r1 = (.ret (some e), r2) →
        ((NewService client repo).Find id k r).result = .ret none (some e)
        ∧ ((NewService client repo).Find id k r).calls
            = [.Find id, .GetCharge oc.ID, .UpdateStatus id c.Status]
        ∧ ((NewService client repo).Find id k r).repo = r2)
    ∧ (∀ (e : Error) (r2 r3 : ρ) (val : Option Payment),
        repo.UpdateStatus id c.Status r1 = (.ret none, r2) →
        repo.Find id r2 = (.ret val (some e), r3) →
        ((NewService client repo).Find id k r).result = .ret none (some e)
        ∧ ((NewService client repo).Find id k r).calls
            = [.Find id, .GetCharge oc.ID, .UpdateStatus id c.Status, .Find id]
        ∧ ((NewService client repo).Find id k r).repo = r3) := by
  constructor
  · intro e r2 hupdate
    simp [service.Find, NewService, hfind, hcharge, hpending, hget, hupdate]
  · intro e r2 r3 val hupdate hagain
    simp [service.Find, NewService, hfind, hcharge, hpending, hget, hupdate, hagain]

/-- Witness of C10 amended: the test cases "UpdateStatus error" and "Find 2 error". -/
theorem Find_downstream_error_witness :
    (((NewService (getChargeTestClient (some (testCharge StatusSuccessful)) none).toClient
          (findTestRepository (some (testPayment StatusPending testNow), none) (none, none)
            (some errSomeError)).toRepository).Find 1 () 0).result
        = .ret none (some errSomeError)
      ∧ ((NewService (getChargeTestClient (some (testCharge StatusSuccessful)) none).toClient
          (findTestRepository (some (testPayment StatusPending testNow), none) (none, none)
            (some errSomeError)).toRepository).Find 1 () 0).calls
        = [.Find 1, .GetCharge (testCharge StatusPending).ID,
           .UpdateStatus 1 (testCharge StatusSuccessful).Status]
      ∧ ((NewService (getChargeTestClient (some (testCharge StatusSuccessful)) none).toClient
          (findTestRepository (some (testPayment StatusPending testNow), none) (none, none)
            (some errSomeError)).toRepository).Find 1 () 0).repo = 1)
    ∧ (((NewService (getChargeTestClient (some (testCharge StatusSuccessful)) none).toClient
          (findTestRepository
            (some (testPayment StatusPending testNow),
             some (testPayment StatusSuccessful testNow))
            (none, some errSomeError) none).toRepository).Find 1 () 0).result
        = .ret none (some errSomeError)
      ∧ ((NewService (getChargeTestClient (some (testCharge StatusSuccessful)) none).toClient
          (findTestRepository
            (some (testPayment StatusPending testNow),
             some (testPayment StatusSuccessful testNow))
            (none, some errSomeError) none).toRepository).Find 1 () 0).calls
        = [.Find 1, .GetCharge (testCharge StatusPending).ID,
           .UpdateStatus 1 (testCharge StatusSuccessful).Status, .Find 1]
      ∧ ((NewService (getChargeTestClient (some (testCharge StatusSuccessful)) none).toClient
          (findTestRepository
            (some (testPayment StatusPending testNow),
             some (testPayment StatusSuccessful testNow))
            (none, some errSomeError) none).toRepository).Find 1 () 0).repo = 2) :=
  ⟨(Find_downstream_error
      (getChargeTestClient (some (testCharge StatusSuccessful)) none).toClient
      (findTestRepository (some (testPayment StatusPending testNow), none) (none, none)
        (some errSomeError)).toRepository
      1 () () 0 1 (testPayment StatusPending testNow) (testCharge StatusPending)
      (testCharge StatusSuccessful) rfl rfl rfl rfl).1 errSomeError 1 rfl,
   (Find_downstream_error
      (getChargeTestClient (some (testCharge StatusSuccessful)) none).toClient
      (findTestRepository
        (some (testPayment StatusPending testNow),
         some (testPayment StatusSuccessful testNow))
        (none, some errSomeError) none).toRepository
      1 () () 0 1 (testPayment StatusPending testNow) (testCharge StatusPending)
      (testCharge StatusSuccessful) rfl rfl rfl rfl).2 errSomeError 1 2
      (some (testPayment StatusSuccessful testNow)) rfl rfl⟩

/-- C15: the response of `getPayment`, for every path segment, every service
and whatever `strconv.Atoi` does.  If `Atoi` fails on the segment the handler
answers 400 with the message "payment id must be a number", does not call
`service.Find` and leaves the service as it was.  If `Atoi` gives `id` the
handler calls `service.Find(id)` once and nothing else; when `Find` returns
the error `ErrPaymentNotFound` it answers 400 with that error's message; when
`Find` returns any other error it answers 500 with that error's message; when
`Find` returns a payment and no error it answers 200 with the payment's id,
status, amount, currency, creation and update instants and the source type of
the payment's charge.  Every answer is written as JSON. -/
theorem getPayment_response {σ : Type} (parse : String → Option Int) (svc : Service σ)
    (idStr : String) (st : σ) :
    (parse idStr = none →
        ((handler.NewPayment svc).getPayment parse idStr st).response
          = some { contentType := "application/json", code := 400,
                   body := .message "payment id must be a number" }
        ∧ ((handler.NewPayment svc).getPayment parse idStr st).finds = []
        ∧ ((handler.NewPayment svc).getPayment parse idStr st).state = st)
    ∧ (∀ id : Int, parse idStr = some id →
        ((handler.NewPayment svc).getPayment parse idStr st).finds = [id]
        ∧ ((handler.NewPayment svc).getPayment parse idStr st).state = (svc.Find id st).2
        ∧ (∀ (val : Option Payment) (st1 : σ),
            svc.Find id st = (.ret val (some ErrPaymentNotFound), st1) →
            ((handler.NewPayment svc).getPayment parse idStr st).response
              = some { contentType := "application/json", code := 400,
                       body := .message ErrPaymentNotFound.Error })
        ∧ (∀ (val : Option Payment) (err : Error) (st1 : σ),
            svc.Find id st = (.ret val (some err), st1) → err ≠ ErrPaymentNotFound →
            ((handler.NewPayment svc).getPayment parse idStr st).response
              = some { contentType := "application/json", code := 500,
                       body := .message err.Error })
        ∧ (∀ (p : Payment) (oc : OmiseCharge) (st1 : σ),
            svc.Find id st = (.ret (some p) none, st1) → p.OmiseCharge = some oc →
            ((handler.NewPayment svc).getPayment parse idStr st).response
              = some { contentType := "application/json", code := 200,
                       body := .payment { ID := p.ID, Status := p.Status, Amount := p.Amount,
                                          Currency := p.Currency, SourceType := oc.SourceType,
                                          CreatedAt := p.CreatedAt,
                                          UpdatedAt := p.UpdatedAt } })) := by
  constructor
  · intro hparse
    simp [handler.Payment.getPayment, handler.NewPayment, hparse, handler.respondError,
      handler.respondJSON, StatusBadRequest]
  · intro id hparse
    refine ⟨?_, ?_, ?_, ?_, ?_⟩
    · simp only [handler.Payment.getPayment, handler.NewPayment, hparse]
      split
      · rfl
      · rfl
      · rfl
      · split <;> rfl
    · simp only [handler.Payment.getPayment, handler.NewPayment, hparse]
      split
      · rename_i h; rw [h]
      · rename_i h; rw [h]
      · rename_i h; rw [h]
      · rename_i h; rw [h]; split <;> rfl
    · intro val st1 hfind
      simp [handler.Payment.getPayment, handler.NewPayment, hparse, hfind,
        handler.respondError, handler.respondJSON, StatusBadRequest]
    · intro val err st1 hfind hne
      simp [handler.Payment.getPayment, handler.NewPayment, hparse, hfind,
        handler.respondError, handler.respondJSON, StatusInternalServerError, hne]
    · intro p oc st1 hfind hoc
      simp [handler.Payment.getPayment, handler.NewPayment, hparse, hfind, hoc,
        handler.respondJSON, StatusOK]

/-- C2: the failing input.  The repository returns a record whose `Status` is
"successful" (not pending) while its charge says "pending".  The claim, the
spec and the comment on `Find` have such a payment returned unchanged without
any gateway call; `Find` tests the charge (line 115): it calls `GetCharge`,
then `UpdateStatus(1, "failed")`, then `Find` again, and returns another
record than the one first found. -/
theorem Find_terminal_status_repolled :
    (findTestRepository (some stalePayment, some (testPayment StatusFailed testNow))
        (none, none) none).toRepository.Find 1 0 = (.ret (some stalePayment) none, 1)
    ∧ stalePayment.Status ≠ StatusPending
    ∧ ((NewService (getChargeTestClient (some (testCharge StatusFailed)) none).toClient
          (findTestRepository (some stalePayment, some (testPayment StatusFailed testNow))
            (none, none) none).toRepository).Find 1 () 0).result
        ≠ .ret (some stalePayment) none
    ∧ ((NewService (getChargeTestClient (some (testCharge StatusFailed)) none).toClient
          (findTestRepository (some stalePayment, some (testPayment StatusFailed testNow))
            (none, none) none).toRepository).Find 1 () 0).calls
        = [.Find 1, .GetCharge "charge-1", .UpdateStatus 1 "failed", .Find 1] := by
  refine ⟨rfl, by decide, ?_, rfl⟩
  decide

/-- C3: the failing input.  The repository returns a record whose stored
`Status` is "pending" while its charge says "successful", and every
collaborator call would succeed.  The claim, the spec and the comment on
`Find` have a pending payment fetched, updated and read again; `Find` tests
the charge (line 115) and returns at once: its only call is the first `Find`,
not the sequence of four calls. -/
theorem Find_pending_status_not_fetched :
    (findTestRepository (some lagPayment, some lagPayment) (none, none) none
        ).toRepository.Find 1 0 = (.ret (some lagPayment) none, 1)
    ∧ lagPayment.Status = StatusPending
    ∧ (getChargeTestClient (some (testCharge StatusSuccessful)) none).toClient.GetCharge
        "charge-1" () = (.ret (some (testCharge StatusSuccessful)) none, ())
    ∧ (findTestRepository (some lagPayment, some lagPayment) (none, none) none
        ).toRepository.UpdateStatus 1 StatusSuccessful 1 = (.ret none, 1)
    ∧ (findTestRepository (some lagPayment, some lagPayment) (none, none) none
        ).toRepository.Find 1 1 = (.ret (some lagPayment) none, 2)
    ∧ ((NewService (getChargeTestClient (some (testCharge StatusSuccessful)) none).toClient
          (findTestRepository (some lagPayment, some lagPayment) (none, none) none
            ).toRepository).Find 1 () 0).calls = [.Find 1]
    ∧ ((NewService (getChargeTestClient (some (testCharge StatusSuccessful)) none).toClient
          (findTestRepository (some lagPayment, some lagPayment) (none, none) none
            ).toRepository).Find 1 () 0).calls
        ≠ [.Find 1, .GetCharge "charge-1", .UpdateStatus 1 StatusSuccessful, .Find 1] := by
  refine ⟨rfl, rfl, rfl, rfl, rfl, rfl, ?_⟩
  decide

/-! ### The in-memory repository: what its methods return -/

theorem inmem_Find_snd (id : Int) (e : Env) : (PaymentRepository.Find id e).2 = e := by
  unfold PaymentRepository.Find
  split <;> rfl

theorem inmem_Find_eq_some (id : Int) (e : Env) (a : Ref) (hm : e.repo.m id = some a) :
    PaymentRepository.Find id e = (.ret (some a) none, e) := by
  simp [PaymentRepository.Find, hm]

theorem inmem_Find_eq_none (id : Int) (e : Env) (hm : e.repo.m id = none) :
    PaymentRepository.Find id e = (.ret none (some ErrPaymentNotFound), e) := by
  simp [PaymentRepository.Find, hm]

theorem inmem_UpdateStatus_some (id : Int) (status : Status) (e : Env) (a b : Ref)
    (hm : e.repo.m id = some a) (hb : (e.payments a).OmiseCharge = some b) :
    PaymentRepository.UpdateStatus id status e = (.ret none, e.updated a b status) := by
  simp [PaymentRepository.UpdateStatus, hm, hb, Env.updated]

theorem inmem_UpdateStatus_none (id : Int) (status : Status) (e : Env)
    (hm : e.repo.m id = none) :
    PaymentRepository.UpdateStatus id status e = (.ret (some ErrPaymentNotFound), e) := by
  simp [PaymentRepository.UpdateStatus, hm]

/-- The run of `Find(i)` over the in-memory store when the charge of the
payment under `i` is not pending. -/
theorem memFind_terminal {κ : Type} (c : PtrClient κ) (k : κ) (e : Env) (i : Int) (a b : Ref)
    (hm : e.repo.m i = some a) (hb : (e.payments a).OmiseCharge = some b)
    (hterminal : (e.charges.cells b).Status ≠ StatusPending) :
    (NewMemService c).Find i k e
      = { result := .ret (some (e.payment a)) none, client := k, repo := e,
          calls := [.Find i] } := by
  simp [memService.Find, NewMemService, inmem_Find_eq_some i e a hm, hb, hterminal]

/-- The run of `Find(i)` over the in-memory store when the charge of the
payment under `i` is pending and `GetCharge` returns a charge. -/
theorem memFind_pending {κ : Type} (c : PtrClient κ) (k k1 : κ) (e : Env) (i : Int)
    (a b f : Ref) (ch1 : ChargeMem)
    (hm : e.repo.m i = some a) (hb : (e.payments a).OmiseCharge = some b)
    (hpending : (e.charges.cells b).Status = StatusPending)
    (hget : c.GetCharge (e.charges.cells b).ID k e.charges = (.ret (some f) none, k1, ch1)) :
    (NewMemService c).Find i k e
      = { result := .ret (some
            ((({ e with charges := ch1 } : Env).updated a b (ch1.cells f).Status).payment a))
            none
          client := k1
          repo := ({ e with charges := ch1 } : Env).updated a b (ch1.cells f).Status
          calls := [.Find i, .GetCharge (e.charges.cells b).ID,
                    .UpdateStatus i (ch1.cells f).Status, .Find i] } := by
  have hupd := inmem_UpdateStatus_some i (ch1.cells f).Status ({ e with charges := ch1 } : Env)
    a b hm hb
  have hagain : PaymentRepository.Find i
      (({ e with charges := ch1 } : Env).updated a b (ch1.cells f).Status)
      = (.ret (some a) none,
          ({ e with charges := ch1 } : Env).updated a b (ch1.cells f).Status) :=
    inmem_Find_eq_some i _ a hm
  simp only [memService.Find, NewMemService, inmem_Find_eq_some i e a hm, hb, hpending, hget,
    hupd, hagain]
  simp

/-- The run of `Find(i)` over the in-memory store when the store holds nothing
under `i`. -/
theorem memFind_none {κ : Type} (c : PtrClient κ) (k : κ) (e : Env) (i : Int)
    (hm : e.repo.m i = none) :
    (NewMemService c).Find i k e
      = { result := .ret none (some ErrPaymentNotFound), client := k, repo := e,
          calls := [.Find i] } := by
  simp [memService.Find, NewMemService, inmem_Find_eq_none i e hm]

/-- The run of `CreatePaymentRequest` over the in-memory store when `Charge`
returns a charge. -/
theorem memCreate_ok {κ : Type} (c : PtrClient κ) (k k1 : κ) (e : Env) (req : Request)
    (charge : Ref) (ch1 : ChargeMem)
    (hc : c.Charge req k e.charges = (.ret (some charge) none, k1, ch1)) :
    (NewMemService c).CreatePaymentRequest req k e
      = { result := .ret (some
            ((PaymentRepository.Create (some e.nextPayment) (e.allocated ch1 charge)).2.payment
              e.nextPayment)) none
          client := k1
          repo := (PaymentRepository.Create (some e.nextPayment) (e.allocated ch1 charge)).2
          calls := [.Charge req, .Create ((e.allocated ch1 charge).payment e.nextPayment)] } := by
  simp [memService.CreatePaymentRequest, NewMemService, hc, PaymentRepository.Create,
    Env.allocated]

/-! ### The in-memory service: frame of one call -/

/-- Frame of one service call over the in-memory store.  Either the call leaves
everything but the charge objects as it was, the charge objects being as they
were or as one call of the client left them; or `Create` ran once on a newly
allocated payment that points to the charge `Charge` returned; or
`UpdateStatus` ran once, inside `Find(id)`, with the status `GetCharge`
reported, on a stored payment whose charge was pending. -/
theorem exec_env_cases {κ : Type} (c : PtrClient κ) (op : Op) (w : κ × Env) :
    (∃ ch1 : ChargeMem, (exec c op w).repo = { w.2 with charges := ch1 }
        ∧ (ch1 = w.2.charges
            ∨ (∃ req, ch1 = (c.Charge req w.1 w.2.charges).2.2)
            ∨ (∃ sid, ch1 = (c.GetCharge sid w.1 w.2.charges).2.2)))
    ∨ (∃ req charge k1 ch1, op = .CreatePaymentRequest req
        ∧ c.Charge req w.1 w.2.charges = (.ret (some charge) none, k1, ch1)
        ∧ (exec c op w).repo
            = (PaymentRepository.Create (some w.2.nextPayment)
                (w.2.allocated ch1 charge)).2)
    ∨ (∃ id a b f k1 ch1, op = .Find id ∧ w.2.repo.m id = some a
        ∧ (w.2.payments a).OmiseCharge = some b
        ∧ (w.2.charges.cells b).Status = StatusPending
        ∧ c.GetCharge (w.2.charges.cells b).ID w.1 w.2.charges = (.ret (some f) none, k1, ch1)
        ∧ (exec c op w).repo
            = ({ w.2 with charges := ch1 } : Env).updated a b (ch1.cells f).Status) := by
  cases op with
  | CreatePaymentRequest req =>
    rcases hc : c.Charge req w.1 w.2.charges with ⟨o, k1, ch1⟩
    have hch : ch1 = (c.Charge req w.1 w.2.charges).2.2 := by rw [hc]
    cases o with
    | panic =>
      refine Or.inl ⟨ch1, ?_, Or.inr (Or.inl ⟨req, hch⟩)⟩
      simp [exec, memService.CreatePaymentRequest, NewMemService, hc]
    | ret val e0 =>
      cases e0 with
      | some e1 =>
        refine Or.inl ⟨ch1, ?_, Or.inr (Or.inl ⟨req, hch⟩)⟩
        simp [exec, memService.CreatePaymentRequest, NewMemService, hc]
      | none =>
        cases val with
        | none =>
          refine Or.inl ⟨ch1, ?_, Or.inr (Or.inl ⟨req, hch⟩)⟩
          simp [exec, memService.CreatePaymentRequest, NewMemService, hc]
        | some charge =>
          refine Or.inr (Or.inl ⟨req, charge, k1, ch1, rfl, hc, ?_⟩)
          simp only [exec]
          rw [memCreate_ok c w.1 k1 w.2 req charge ch1 hc]
  | Find id =>
    cases hm : w.2.repo.m id with
    | none =>
      refine Or.inl ⟨w.2.charges, ?_, Or.inl rfl⟩
      simp only [exec]
      rw [memFind_none c w.1 w.2 id hm]
    | some a =>
      cases hb : (w.2.payments a).OmiseCharge with
      | none =>
        refine Or.inl ⟨w.2.charges, ?_, Or.inl rfl⟩
        simp [exec, memService.Find, NewMemService, inmem_Find_eq_some id w.2 a hm, hb]
      | some b =>
        by_cases hst : (w.2.charges.cells b).Status ≠ StatusPending
        · refine Or.inl ⟨w.2.charges, ?_, Or.inl rfl⟩
          simp only [exec]
          rw [memFind_terminal c w.1 w.2 id a b hm hb hst]
        · have hpend : (w.2.charges.cells b).Status = StatusPending := by
            by_contra hcon
            exact hst hcon
          rcases hg : c.GetCharge (w.2.charges.cells b).ID w.1 w.2.charges with ⟨o, k1, ch1⟩
          have hch : ch1 = (c.GetCharge (w.2.charges.cells b).ID w.1 w.2.charges).2.2 := by
            rw [hg]
          cases o with
          | panic =>
            refine Or.inl ⟨ch1, ?_, Or.inr (Or.inr ⟨_, hch⟩)⟩
            simp [exec, memService.Find, NewMemService, inmem_Find_eq_some id w.2 a hm, hb,
              hpend, hg]
          | ret val e0 =>
            cases e0 with
            | some e1 =>
              refine Or.inl ⟨ch1, ?_, Or.inr (Or.inr ⟨_, hch⟩)⟩
              simp [exec, memService.Find, NewMemService, inmem_Find_eq_some id w.2 a hm, hb,
                hpend, hg]
            | none =>
              cases val with
              | none =>
                refine Or.inl ⟨ch1, ?_, Or.inr (Or.inr ⟨_, hch⟩)⟩
                simp [exec, memService.Find, NewMemService, inmem_Find_eq_some id w.2 a hm,
                  hb, hpend, hg]
              | some f =>
                refine Or.inr (Or.inr ⟨id, a, b, f, k1, ch1, rfl, hm, hb, hpend, hg, ?_⟩)
                simp only [exec]
                rw [memFind_pending c w.1 k1 w.2 id a b f ch1 hm hb hpend hg]

theorem BaseInv_new (clock : Clock) (charges : ChargeMem) : BaseInv (NewEnv clock charges) := by
  refine ⟨le_refl _, ?_, ?_⟩
  · intro i h1 h2
    simp only [NewEnv, NewPaymentRepository] at h2
    omega
  · intro i a h
    simp [NewEnv, NewPaymentRepository] at h

theorem BaseInv_charges (e : Env) (ch1 : ChargeMem) (h : BaseInv e) :
    BaseInv { e with charges := ch1 } := h

theorem BaseInv_created (e : Env) (ch1 : ChargeMem) (charge : Ref) (h : BaseInv e) :
    BaseInv (PaymentRepository.Create (some e.nextPayment) (e.allocated ch1 charge)).2 := by
  obtain ⟨h0, hall, hrec⟩ := h
  refine ⟨?_, ?_, ?_⟩
  · simp only [PaymentRepository.Create, Env.allocated]
    omega
  · intro i h1 h2
    simp only [PaymentRepository.Create, Env.allocated] at h2 ⊢
    by_cases hi : i = e.repo.currentID + 1
    · simp [hi]
    · simp only [hi, if_false]
      exact hall i h1 (by omega)
  · intro i a ha
    simp only [PaymentRepository.Create, Env.allocated] at ha ⊢
    by_cases hi : i = e.repo.currentID + 1
    · simp only [hi, if_true, Option.some.injEq] at ha
      subst ha
      refine ⟨by omega, by omega, Nat.lt_succ_self _, by simp [hi], charge, by simp⟩
    · simp only [hi, if_false] at ha
      obtain ⟨h1, h2, h3, h4, b, hb⟩ := hrec i a ha
      have hne : a ≠ e.nextPayment := Nat.ne_of_lt h3
      refine ⟨h1, by omega, Nat.lt_succ_of_lt h3, ?_, b, ?_⟩
      · simp only [hne, if_false]
        exact h4
      · simp only [hne, if_false]
        exact hb

theorem BaseInv_updated (e : Env) (a b : Ref) (status : Status) (h : BaseInv e) :
    BaseInv (e.updated a b status) := by
  obtain ⟨h0, hall, hrec⟩ := h
  refine ⟨h0, hall, ?_⟩
  intro i a1 ha1
  obtain ⟨h1, h2, h3, h4, b1, hb1⟩ := hrec i a1 ha1
  refine ⟨h1, h2, h3, ?_, b1, ?_⟩
  · simp only [Env.updated]
    by_cases hx : a1 = a
    · simp only [hx, if_true]
      rw [← hx]
      exact h4
    · simp only [hx, if_false]
      exact h4
  · simp only [Env.updated]
    by_cases hx : a1 = a
    · simp only [hx, if_true]
      rw [← hx]
      exact hb1
    · simp only [hx, if_false]
      exact hb1

theorem BaseInv_step {κ : Type} (c : PtrClient κ) (op : Op) (w : κ × Env) (h : BaseInv w.2) :
    BaseInv (step c w op).2 := by
  simp only [step]
  rcases exec_env_cases c op w with ⟨ch1, h1, _⟩ | ⟨req, charge, k1, ch1, _, _, h2⟩ |
    ⟨id, a, b, f, k1, ch1, _, _, _, _, _, h3⟩
  · rw [h1]; exact BaseInv_charges w.2 ch1 h
  · rw [h2]; exact BaseInv_created w.2 ch1 charge h
  · rw [h3]; exact BaseInv_updated _ a b _ (BaseInv_charges w.2 ch1 h)

theorem BaseInv_runOps {κ : Type} (c : PtrClient κ) (ops : List Op) (w : κ × Env)
    (h : BaseInv w.2) : BaseInv (runOps c ops w).2 := by
  induction ops generalizing w with
  | nil => exact h
  | cons op rest ih => exact ih (step c w op) (BaseInv_step c op w h)

theorem BaseInv_of_Reachable {κ : Type} (c : PtrClient κ) (w : κ × Env) (h : Reachable c w) :
    BaseInv w.2 := by
  obtain ⟨ops, k0, clock, charges, rfl⟩ := h
  exact BaseInv_runOps c ops _ (BaseInv_new clock charges)

/-! ### C6, C7: two consecutive `Find`, and `Find` of an unknown id -/

/-- C6: idempotence of `Find`.  Over the in-memory repository, whatever the
gateway client does with the charge objects, for a payment stored under id `i`
whose charge the gateway reports with a status that is not "pending": two
consecutive calls `service.Find(i)` both return `(q, nil)` for one and the same
payment `q`; the second call makes the single call `Find(i)` on the repository
(no `GetCharge`, no `UpdateStatus`), and leaves the store, the payment and
charge objects, the clock and the gateway as the first call left them. -/
theorem Find_twice {κ : Type} (c : PtrClient κ) (w : κ × Env) (i : Int) (a b f : Ref)
    (k1 : κ) (ch1 : ChargeMem)
    (hstored : w.2.repo.m i = some a)
    (hcharge : (w.2.payments a).OmiseCharge = some b)
    (hget : c.GetCharge (w.2.charges.cells b).ID w.1 w.2.charges = (.ret (some f) none, k1, ch1))
    (hterminal : (ch1.cells f).Status ≠ StatusPending) :
    ∃ q : Payment,
      ((NewMemService c).Find i w.1 w.2).result = .ret (some q) none
      ∧ ((NewMemService c).Find i
            ((NewMemService c).Find i w.1 w.2).client
            ((NewMemService c).Find i w.1 w.2).repo).result = .ret (some q) none
      ∧ ((NewMemService c).Find i
            ((NewMemService c).Find i w.1 w.2).client
            ((NewMemService c).Find i w.1 w.2).repo).calls = [.Find i]
      ∧ ((NewMemService c).Find i
            ((NewMemService c).Find i w.1 w.2).client
            ((NewMemService c).Find i w.1 w.2).repo).repo
          = ((NewMemService c).Find i w.1 w.2).repo
      ∧ ((NewMemService c).Find i
            ((NewMemService c).Find i w.1 w.2).client
            ((NewMemService c).Find i w.1 w.2).repo).client
          = ((NewMemService c).Find i w.1 w.2).client := by
  by_cases hst : (w.2.charges.cells b).Status ≠ StatusPending
  · have h1 := memFind_terminal c w.1 w.2 i a b hstored hcharge hst
    refine ⟨w.2.payment a, ?_, ?_, ?_, ?_, ?_⟩ <;> simp only [h1]
  · have hpend : (w.2.charges.cells b).Status = StatusPending := by
      by_contra hcon
      exact hst hcon
    have h1 := memFind_pending c w.1 k1 w.2 i a b f ch1 hstored hcharge hpend hget
    have h2 := memFind_terminal c k1
      (({ w.2 with charges := ch1 } : Env).updated a b (ch1.cells f).Status) i a b hstored
      (by simp [Env.updated, hcharge]) (by simpa [Env.updated] using hterminal)
    refine ⟨(({ w.2 with charges := ch1 } : Env).updated a b (ch1.cells f).Status).payment a,
      ?_, ?_, ?_, ?_, ?_⟩ <;> simp only [h1, h2]

/-- Witness of C6: payment 1 is stored pending, the gateway reports "successful". -/
theorem Find_twice_witness :
    ∃ q : Payment,
      ((NewMemService (settlingClient StatusSuccessful).toClient.alloc).Find 1
          afterCreate.1 afterCreate.2).result = .ret (some q) none
      ∧ ((NewMemService (settlingClient StatusSuccessful).toClient.alloc).Find 1
            ((NewMemService (settlingClient StatusSuccessful).toClient.alloc).Find 1
              afterCreate.1 afterCreate.2).client
            ((NewMemService (settlingClient StatusSuccessful).toClient.alloc).Find 1
              afterCreate.1 afterCreate.2).repo).result = .ret (some q) none
      ∧ ((NewMemService (settlingClient StatusSuccessful).toClient.alloc).Find 1
            ((NewMemService (settlingClient StatusSuccessful).toClient.alloc).Find 1
              afterCreate.1 afterCreate.2).client
            ((NewMemService (settlingClient StatusSuccessful).toClient.alloc).Find 1
              afterCreate.1 afterCreate.2).repo).calls = [.Find 1]
      ∧ ((NewMemService (settlingClient StatusSuccessful).toClient.alloc).Find 1
            ((NewMemService (settlingClient StatusSuccessful).toClient.alloc).Find 1
              afterCreate.1 afterCreate.2).client
            ((NewMemService (settlingClient StatusSuccessful).toClient.alloc).Find 1
              afterCreate.1 afterCreate.2).repo).repo
          = ((NewMemService (settlingClient StatusSuccessful).toClient.alloc).Find 1
              afterCreate.1 afterCreate.2).repo
      ∧ ((NewMemService (settlingClient StatusSuccessful).toClient.alloc).Find 1
            ((NewMemService (settlingClient StatusSuccessful).toClient.alloc).Find 1
              afterCreate.1 afterCreate.2).client
            ((NewMemService (settlingClient StatusSuccessful).toClient.alloc).Find 1
              afterCreate.1 afterCreate.2).repo).client
          = ((NewMemService (settlingClient StatusSuccessful).toClient.alloc).Find 1
              afterCreate.1 afterCreate.2).client :=
  Find_twice (settlingClient StatusSuccessful).toClient.alloc afterCreate 1 0 0 1 ()
    ((settlingClient StatusSuccessful).toClient.alloc.GetCharge "charge-1" ()
      afterCreate.2.charges).2.2
    rfl rfl rfl (by decide)

/-- C7: not found.  For every repository whose first `Find(id)` returns an error
`e`, `service.Find(id)` returns `(nil, e)`, that `Find` is its only collaborator
call and the gateway state is untouched.  Over the in-memory repository, for
every id under which the store holds no record, `service.Find(id)` returns
`(nil, ErrPaymentNotFound)`, the error the store's `Find` returned, its only
call is `Find(id)` on the repository, and the store, the payment and charge
objects, the clock and the gateway are left unchanged.  In a state the service
has reached, the store holds no record under any id outside `1 .. currentID`,
the ids `Create` has assigned. -/
theorem Find_not_found :
    (∀ (κ ρ : Type) (client : Client κ) (repo : Repository ρ) (id : Int) (k : κ) (r r1 : ρ)
        (val : Option Payment) (e : Error),
        repo.Find id r = (.ret val (some e), r1) →
        ((NewService client repo).Find id k r).result = .ret none (some e)
        ∧ ((NewService client repo).Find id k r).calls = [.Find id]
        ∧ ((NewService client repo).Find id k r).client = k
        ∧ ((NewService client repo).Find id k r).repo = r1)
    ∧ (∀ (κ : Type) (client : PtrClient κ) (id : Int) (k : κ) (env : Env),
        env.repo.m id = none →
        PaymentRepository.Find id env = (.ret none (some ErrPaymentNotFound), env)
        ∧ ((NewMemService client).Find id k env).result
            = .ret none (some ErrPaymentNotFound)
        ∧ ((NewMemService client).Find id k env).calls = [.Find id]
        ∧ ((NewMemService client).Find id k env).client = k
        ∧ ((NewMemService client).Find id k env).repo = env)
    ∧ (∀ (κ : Type) (client : PtrClient κ) (w : κ × Env) (id : Int),
        Reachable client w → (id < 1 ∨ w.2.repo.currentID < id) → w.2.repo.m id = none) := by
  refine ⟨?_, ?_, ?_⟩
  · intro κ ρ client repo id k r r1 val e hfind
    simp [service.Find, NewService, hfind]
  · intro κ client id k env hm
    refine ⟨inmem_Find_eq_none id env hm, ?_⟩
    rw [memFind_none client k env id hm]
    exact ⟨rfl, rfl, rfl, rfl⟩
  · intro κ client w id hreach hid
    obtain ⟨_, _, hrec⟩ := BaseInv_of_Reachable client w hreach
    cases hm : w.2.repo.m id with
    | none => rfl
    | some p =>
      obtain ⟨h1, h2, _⟩ := hrec id p hm
      omega

/-- Witness of C7: scenario C, `Find(42)` on the store that holds payment 1 only;
and the test case "Find 1 error" for the mock repository. -/
theorem Find_not_found_witness :
    (((NewService (getChargeTestClient (some (testCharge StatusSuccessful)) none).toClient
        (findTestRepository
          (some (testPayment StatusPending testNow), some (testPayment StatusSuccessful testNow))
          (some errSomeError, none) none).toRepository).Find 1 () 0).result
        = .ret none (some errSomeError)
      ∧ ((NewService (getChargeTestClient (some (testCharge StatusSuccessful)) none).toClient
        (findTestRepository
          (some (testPayment StatusPending testNow), some (testPayment StatusSuccessful testNow))
          (some errSomeError, none) none).toRepository).Find 1 () 0).calls = [.Find 1]
      ∧ ((NewService (getChargeTestClient (some (testCharge StatusSuccessful)) none).toClient
        (findTestRepository
          (some (testPayment StatusPending testNow), some (testPayment StatusSuccessful testNow))
          (some errSomeError, none) none).toRepository).Find 1 () 0).client = ()
      ∧ ((NewService (getChargeTestClient (some (testCharge StatusSuccessful)) none).toClient
        (findTestRepository
          (some (testPayment StatusPending testNow), some (testPayment StatusSuccessful testNow))
          (some errSomeError, none) none).toRepository).Find 1 () 0).repo = 1)
    ∧ (PaymentRepository.Find 42 afterCreate.2
          = (.ret none (some ErrPaymentNotFound), afterCreate.2)
      ∧ ((NewMemService (settlingClient StatusSuccessful).toClient.alloc).Find 42
          afterCreate.1 afterCreate.2).result = .ret none (some ErrPaymentNotFound)
      ∧ ((NewMemService (settlingClient StatusSuccessful).toClient.alloc).Find 42
          afterCreate.1 afterCreate.2).calls = [.Find 42]
      ∧ ((NewMemService (settlingClient StatusSuccessful).toClient.alloc).Find 42
          afterCreate.1 afterCreate.2).client = afterCreate.1
      ∧ ((NewMemService (settlingClient StatusSuccessful).toClient.alloc).Find 42
          afterCreate.1 afterCreate.2).repo = afterCreate.2)
    ∧ afterCreate.2.repo.m 42 = none :=
  ⟨Find_not_found.1 Unit Nat
      (getChargeTestClient (some (testCharge StatusSuccessful)) none).toClient
      (findTestRepository
        (some (testPayment StatusPending testNow), some (testPayment StatusSuccessful testNow))
        (some errSomeError, none) none).toRepository
      1 () 0 1 (some (testPayment StatusPending testNow)) errSomeError rfl,
   Find_not_found.2.1 Unit (settlingClient StatusSuccessful).toClient.alloc 42 afterCreate.1
      afterCreate.2 rfl,
   Find_not_found.2.2 Unit (settlingClient StatusSuccessful).toClient.alloc afterCreate 42
      ⟨[.CreatePaymentRequest testRequest], (), testClock, emptyCharges, rfl⟩
      (Or.inr (by decide))⟩

/-- Witness of C15: the four test cases of `TestPayment_getPayment`, with the
model `Atoi` of `strconv.Atoi`: "invalid payment id" (segment `x`), "not
found", "error" and "success" (segment `1`); and segment `42` with the payment
service over the in-memory store that holds payment 1 only. -/
theorem getPayment_response_witness :
    (((handler.NewPayment (getPaymentTestService none (some ErrPaymentNotFound)).toService
          ).getPayment Atoi "x" ()).response
        = some { contentType := "application/json", code := 400,
                 body := .message "payment id must be a number" }
      ∧ ((handler.NewPayment (getPaymentTestService none (some ErrPaymentNotFound)).toService
          ).getPayment Atoi "x" ()).finds = []
      ∧ ((handler.NewPayment (getPaymentTestService none (some ErrPaymentNotFound)).toService
          ).getPayment Atoi "x" ()).state = ())
    ∧ ((handler.NewPayment (getPaymentTestService none (some ErrPaymentNotFound)).toService
          ).getPayment Atoi "1" ()).response
        = some { contentType := "application/json", code := 400,
                 body := .message ErrPaymentNotFound.Error }
    ∧ ((handler.NewPayment (getPaymentTestService none (some errSomeError)).toService
          ).getPayment Atoi "1" ()).response
        = some { contentType := "application/json", code := 500,
                 body := .message errSomeError.Error }
    ∧ ((handler.NewPayment
          (getPaymentTestService (some (testPayment StatusSuccessful testNow)) none).toService
          ).getPayment Atoi "1" ()).response
        = some { contentType := "application/json", code := 200,
                 body := .payment { ID := 1, Status := StatusSuccessful, Amount := 20000,
                                    Currency := "THB", SourceType := "internet_banking_scb",
                                    CreatedAt := testNow, UpdatedAt := testNow } }
    ∧ ((handler.NewPayment
          (NewMemService (settlingClient StatusSuccessful).toClient.alloc).toService
          ).getPayment Atoi "42" afterCreate).response
        = some { contentType := "application/json", code := 400,
                 body := .message "payment not found" } :=
  ⟨(getPayment_response Atoi (getPaymentTestService none (some ErrPaymentNotFound)).toService
      "x" ()).1 (by decide),
   ((getPayment_response Atoi (getPaymentTestService none (some ErrPaymentNotFound)).toService
      "1" ()).2 1 (by decide)).2.2.1 none () rfl,
   ((getPayment_response Atoi (getPaymentTestService none (some errSomeError)).toService
      "1" ()).2 1 (by decide)).2.2.2.1 none errSomeError () rfl (by decide),
   ((getPayment_response Atoi
      (getPaymentTestService (some (testPayment StatusSuccessful testNow)) none).toService
      "1" ()).2 1 (by decide)).2.2.2.2 (testPayment StatusSuccessful testNow)
      (testCharge StatusSuccessful) () rfl rfl,
   ((getPayment_response Atoi
      (NewMemService (settlingClient StatusSuccessful).toClient.alloc).toService
      "42" afterCreate).2 42 (by decide)).2.2.1 none afterCreate rfl⟩

/-! ### C5, C16: the test of line 115 on states the service reaches -/

/-- C5: the failing input.  The gateway client keeps one charge object and
writes every charge it opens into it.  After `CreatePaymentRequest` and
`Find(1)` the stored payment 1 has status "successful".  The next
`CreatePaymentRequest` makes the client write a pending charge into the object
payment 1 points to; the `Find(1)` after it reads that charge status, calls
`GetCharge` and `UpdateStatus(1, "failed")`: the stored payment 1 has status
"failed". -/
theorem terminal_status_overwritten :
    (afterReusedFind.2.record 1).map (fun p => p.Status) = some StatusSuccessful
    ∧ ((runOps reusingClient [.CreatePaymentRequest testRequest] afterReusedFind).2.record 1).map
        (fun p => p.Status) = some StatusSuccessful
    ∧ (exec reusingClient (.Find 1)
        (runOps reusingClient [.CreatePaymentRequest testRequest] afterReusedFind)).calls
        = [.Find 1, .GetCharge "charge-1", .UpdateStatus 1 StatusFailed, .Find 1]
    ∧ ((runOps reusingClient [.CreatePaymentRequest testRequest, .Find 1]
          afterReusedFind).2.record 1).map (fun p => p.Status) = some StatusFailed := by
  refine ⟨by decide, by decide, by decide, by decide⟩

/-- C16: the failing input.  The gateway client returns the pointer to one
charge object from both `CreatePaymentRequest` calls; `Find(1)` has stored
"successful" through that pointer.  Two creates have succeeded, the stored
payment 2 has status "pending", `GetCharge` would fail, and `Find(2)` returns
payment 2 with no error after the single call `Find(2)` on the repository. -/
theorem Find_pending_no_error_when_getCharge_fails :
    afterSharedFind.2.repo.currentID = 2
    ∧ (afterSharedFind.2.record 2).map (fun p => p.Status) = some StatusPending
    ∧ (afterSharedFind.2.record 2).map (fun p => p.OmiseCharge.map (fun oc => oc.Status))
        = some (some StatusSuccessful)
    ∧ (sharingClient.GetCharge "charge-1" afterSharedFind.1 afterSharedFind.2.charges).1
        = .ret none (some errSomeError)
    ∧ ((NewMemService sharingClient).Find 2 afterSharedFind.1 afterSharedFind.2).result
        = .ret (afterSharedFind.2.record 2) none
    ∧ ((NewMemService sharingClient).Find 2 afterSharedFind.1 afterSharedFind.2).calls
        = [.Find 2] := by
  refine ⟨by decide, by decide, by decide, by decide, by decide, by decide⟩

/-! ### Gateway clients that allocate a new charge for every answer -/

theorem alloc_FreshClient {κ : Type} (c : Client κ) : FreshClient c.alloc := by
  refine ⟨?_, ?_⟩
  · intro req k ch
    simp only [Client.alloc]
    rcases hc : c.Charge req k with ⟨o, k1⟩
    cases o with
    | panic => simp
    | ret val err =>
      cases val with
      | none => simp
      | some v =>
        refine ⟨by simp, ?_, ?_⟩
        · intro y hy
          have hne : y ≠ ch.next := Nat.ne_of_lt hy
          simp [hne]
        · intro b err1 hb
          simp only [Outcome.ret.injEq, Option.some.injEq] at hb
          rw [← hb.1]
          exact ⟨le_refl _, Nat.lt_succ_self _⟩
  · intro id k ch
    simp only [Client.alloc]
    rcases hc : c.GetCharge id k with ⟨o, k1⟩
    cases o with
    | panic => simp
    | ret val err =>
      cases val with
      | none => simp
      | some v =>
        refine ⟨by simp, ?_⟩
        intro y hy
        have hne : y ≠ ch.next := Nat.ne_of_lt hy
        simp [hne]

theorem FreshInv_new (clock : Clock) (charges : ChargeMem) : FreshInv (NewEnv clock charges) := by
  refine ⟨?_, ?_⟩
  · intro i a b h
    simp [NewEnv, NewPaymentRepository] at h
  · intro i j a1 a2 b h
    simp [NewEnv, NewPaymentRepository] at h

/-- The charge objects of the stored payments are not written, and stay
allocated, when the charge memory grows without a write below its old bound. -/
theorem FreshInv_charges (e : Env) (ch1 : ChargeMem) (h : FreshInv e)
    (hnext : e.charges.next ≤ ch1.next)
    (hcells : ∀ y : Ref, y < e.charges.next → ch1.cells y = e.charges.cells y) :
    FreshInv { e with charges := ch1 } := by
  obtain ⟨h1, h2⟩ := h
  refine ⟨?_, h2⟩
  intro i a b hm hb
  obtain ⟨hlt, hst⟩ := h1 i a b hm hb
  refine ⟨Nat.lt_of_lt_of_le hlt hnext, ?_⟩
  show (ch1.cells b).Status = (e.payments a).Status
  rw [hcells b hlt]
  exact hst

theorem FreshInv_created (e : Env) (ch1 : ChargeMem) (charge : Ref) (hb : BaseInv e)
    (h : FreshInv e) (hnext : e.charges.next ≤ ch1.next)
    (hcells : ∀ y : Ref, y < e.charges.next → ch1.cells y = e.charges.cells y)
    (hnew : e.charges.next ≤ charge ∧ charge < ch1.next) :
    FreshInv (PaymentRepository.Create (some e.nextPayment) (e.allocated ch1 charge)).2 := by
  obtain ⟨_, _, hrec⟩ := hb
  obtain ⟨h1, h2⟩ := h
  have hold : ∀ (i : Int) (a : Ref),
      (if i = e.repo.currentID + 1 then some e.nextPayment else e.repo.m i) = some a →
      (i = e.repo.currentID + 1 ∧ a = e.nextPayment)
      ∨ (i ≠ e.repo.currentID + 1 ∧ a ≠ e.nextPayment ∧ e.repo.m i = some a) := by
    intro i a ha
    by_cases hi : i = e.repo.currentID + 1
    · simp only [hi, if_true, Option.some.injEq] at ha
      exact Or.inl ⟨hi, ha.symm⟩
    · simp only [hi, if_false] at ha
      exact Or.inr ⟨hi, Nat.ne_of_lt (hrec i a ha).2.2.1, ha⟩
  refine ⟨?_, ?_⟩
  · intro i a b hm hch
    simp only [PaymentRepository.Create, Env.allocated] at hm hch ⊢
    rcases hold i a hm with ⟨_, ha⟩ | ⟨_, hne, hm0⟩
    · subst ha
      simp only [if_true, Option.some.injEq] at hch
      subst hch
      exact ⟨hnew.2, by simp⟩
    · simp only [hne, if_false] at hch ⊢
      obtain ⟨hlt, hst⟩ := h1 i a b hm0 hch
      refine ⟨Nat.lt_of_lt_of_le hlt hnext, ?_⟩
      rw [hcells b hlt]
      exact hst
  · intro i j a1 a2 b hi hj hb1 hb2
    simp only [PaymentRepository.Create, Env.allocated] at hi hj hb1 hb2
    rcases hold i a1 hi with ⟨hi1, ha1⟩ | ⟨_, hne1, hm1⟩
    · rcases hold j a2 hj with ⟨hj1, _⟩ | ⟨_, hne2, hm2⟩
      · rw [hi1, hj1]
      · subst ha1
        simp only [if_true, Option.some.injEq] at hb1
        simp only [hne2, if_false] at hb2
        have hlt := (h1 j a2 b hm2 hb2).1
        have hge := hnew.1
        rw [hb1] at hge
        exact absurd hlt (Nat.not_lt.mpr hge)
    · rcases hold j a2 hj with ⟨_, ha2⟩ | ⟨_, hne2, hm2⟩
      · subst ha2
        simp only [if_true, Option.some.injEq] at hb2
        simp only [hne1, if_false] at hb1
        have hlt := (h1 i a1 b hm1 hb1).1
        have hge := hnew.1
        rw [hb2] at hge
        exact absurd hlt (Nat.not_lt.mpr hge)
      · simp only [hne1, if_false] at hb1
        simp only [hne2, if_false] at hb2
        exact h2 i j a1 a2 b hm1 hm2 hb1 hb2

theorem FreshInv_updated (e : Env) (id : Int) (a b : Ref) (status : Status) (hb : BaseInv e)
    (h : FreshInv e) (hm : e.repo.m id = some a) (hch : (e.payments a).OmiseCharge = some b) :
    FreshInv (e.updated a b status) := by
  obtain ⟨_, _, hrec⟩ := hb
  obtain ⟨h1, h2⟩ := h
  refine ⟨?_, ?_⟩
  · intro j a2 b2 hj hb2
    simp only [Env.updated] at hj hb2 ⊢
    by_cases ha : a2 = a
    · subst ha
      simp only [if_true] at hb2 ⊢
      rw [hch] at hb2
      have hbb : b = b2 := Option.some.inj hb2
      subst hbb
      exact ⟨(h1 id a2 b hm hch).1, by simp⟩
    · simp only [ha, if_false] at hb2 ⊢
      have hji : j ≠ id := by
        intro hcon
        rw [hcon, hm] at hj
        exact ha (Option.some.inj hj).symm
      have hbb : b2 ≠ b := by
        intro hcon
        rw [hcon] at hb2
        exact hji (h2 j id a2 a b hj hm hb2 hch)
      simp only [hbb, if_false]
      exact h1 j a2 b2 hj hb2
  · intro i j a1 a2 b0 hi hj hb1 hb2
    simp only [Env.updated] at hi hj hb1 hb2
    have hsame : ∀ x : Ref,
        (if x = a then { e.payments a with Status := status, UpdatedAt := e.clock 0 }
          else e.payments x).OmiseCharge = (e.payments x).OmiseCharge := by
      intro x
      by_cases hx : x = a
      · simp [hx]
      · simp [hx]
    rw [hsame] at hb1 hb2
    exact h2 i j a1 a2 b0 hi hj hb1 hb2

theorem FreshInv_step {κ : Type} (c : PtrClient κ) (hc : FreshClient c) (op : Op) (w : κ × Env)
    (hb : BaseInv w.2) (h : FreshInv w.2) : FreshInv (step c w op).2 := by
  have hgrow : ∀ ch1 : ChargeMem,
      (ch1 = w.2.charges
        ∨ (∃ req, ch1 = (c.Charge req w.1 w.2.charges).2.2)
        ∨ (∃ sid, ch1 = (c.GetCharge sid w.1 w.2.charges).2.2)) →
      w.2.charges.next ≤ ch1.next
      ∧ ∀ y : Ref, y < w.2.charges.next → ch1.cells y = w.2.charges.cells y := by
    intro ch1 hch
    rcases hch with rfl | ⟨req, rfl⟩ | ⟨sid, rfl⟩
    · exact ⟨le_refl _, fun _ _ => rfl⟩
    · exact ⟨(hc.1 req w.1 w.2.charges).1, (hc.1 req w.1 w.2.charges).2.1⟩
    · exact ⟨(hc.2 sid w.1 w.2.charges).1, (hc.2 sid w.1 w.2.charges).2⟩
  simp only [step]
  rcases exec_env_cases c op w with ⟨ch1, h1, hch⟩ | ⟨req, charge, k1, ch1, _, hcharge, h2⟩ |
    ⟨id, a, b, f, k1, ch1, _, hm, hbc, _, hget, h3⟩
  · rw [h1]
    exact FreshInv_charges w.2 ch1 h (hgrow ch1 hch).1 (hgrow ch1 hch).2
  · rw [h2]
    have hg := hgrow ch1 (Or.inr (Or.inl ⟨req, by rw [hcharge]⟩))
    have hnew := (hc.1 req w.1 w.2.charges).2.2 charge none (by rw [hcharge])
    rw [hcharge] at hnew
    exact FreshInv_created w.2 ch1 charge hb h hg.1 hg.2 hnew
  · rw [h3]
    have hg := hgrow ch1 (Or.inr (Or.inr ⟨_, by rw [hget]⟩))
    exact FreshInv_updated _ id a b _ (BaseInv_charges w.2 ch1 hb)
      (FreshInv_charges w.2 ch1 h hg.1 hg.2) hm hbc

theorem FreshInv_runOps {κ : Type} (c : PtrClient κ) (hc : FreshClient c) (ops : List Op)
    (w : κ × Env) (hb : BaseInv w.2) (h : FreshInv w.2) : FreshInv (runOps c ops w).2 := by
  induction ops generalizing w with
  | nil => exact h
  | cons op rest ih =>
    exact ih (step c w op) (BaseInv_step c op w hb) (FreshInv_step c hc op w hb h)

theorem FreshInv_of_Reachable {κ : Type} (c : PtrClient κ) (hc : FreshClient c) (w : κ × Env)
    (h : Reachable c w) : FreshInv w.2 := by
  obtain ⟨ops, k0, clock, charges, rfl⟩ := h
  exact FreshInv_runOps c hc ops _ (BaseInv_new clock charges) (FreshInv_new clock charges)

/-- A payment that a service call over the in-memory store returns is the
payment object some key of the store points to when the call is over. -/
theorem exec_result_stored {κ : Type} (c : PtrClient κ) (op : Op) (w : κ × Env) (q : Payment)
    (err : Option Error) (h : (exec c op w).result = .ret (some q) err) :
    ∃ (i : Int) (a : Ref), (exec c op w).repo.repo.m i = some a
      ∧ q = (exec c op w).repo.payment a := by
  cases op with
  | CreatePaymentRequest req =>
    rcases hc : c.Charge req w.1 w.2.charges with ⟨o, k1, ch1⟩
    cases o with
    | panic => simp [exec, memService.CreatePaymentRequest, NewMemService, hc] at h
    | ret val e0 =>
      cases e0 with
      | some e1 => simp [exec, memService.CreatePaymentRequest, NewMemService, hc] at h
      | none =>
        cases val with
        | none => simp [exec, memService.CreatePaymentRequest, NewMemService, hc] at h
        | some charge =>
          simp only [exec] at h ⊢
          rw [memCreate_ok c w.1 k1 w.2 req charge ch1 hc] at h ⊢
          simp only [Outcome.ret.injEq, Option.some.injEq] at h
          refine ⟨w.2.repo.currentID + 1, w.2.nextPayment, ?_, h.1.symm⟩
          simp [PaymentRepository.Create, Env.allocated]
  | Find id =>
    cases hm : w.2.repo.m id with
    | none =>
      simp only [exec] at h
      rw [memFind_none c w.1 w.2 id hm] at h
      simp at h
    | some a =>
      cases hb : (w.2.payments a).OmiseCharge with
      | none =>
        simp [exec, memService.Find, NewMemService, inmem_Find_eq_some id w.2 a hm, hb] at h
      | some b =>
        by_cases hst : (w.2.charges.cells b).Status ≠ StatusPending
        · simp only [exec] at h ⊢
          rw [memFind_terminal c w.1 w.2 id a b hm hb hst] at h ⊢
          simp only [Outcome.ret.injEq, Option.some.injEq] at h
          exact ⟨id, a, hm, h.1.symm⟩
        · have hpend : (w.2.charges.cells b).Status = StatusPending := by
            by_contra hcon
            exact hst hcon
          rcases hg : c.GetCharge (w.2.charges.cells b).ID w.1 w.2.charges with ⟨o, k1, ch1⟩
          cases o with
          | panic =>
            simp [exec, memService.Find, NewMemService, inmem_Find_eq_some id w.2 a hm, hb,
              hpend, hg] at h
          | ret val e0 =>
            cases e0 with
            | some e1 =>
              simp [exec, memService.Find, NewMemService, inmem_Find_eq_some id w.2 a hm, hb,
                hpend, hg] at h
            | none =>
              cases val with
              | none =>
                simp [exec, memService.Find, NewMemService, inmem_Find_eq_some id w.2 a hm,
                  hb, hpend, hg] at h
              | some f =>
                simp only [exec] at h ⊢
                rw [memFind_pending c w.1 k1 w.2 id a b f ch1 hm hb hpend hg] at h ⊢
                simp only [Outcome.ret.injEq, Option.some.injEq] at h
                exact ⟨id, a, hm, h.1.symm⟩

/-! ### C8: `GetCharge` fails -/

/-- The run of `Find(i)` over the in-memory store when the charge of the
payment under `i` is pending and `GetCharge` returns an error. -/
theorem memFind_getCharge_error {κ : Type} (c : PtrClient κ) (k k1 : κ) (e : Env) (i : Int)
    (a b : Ref) (val : Option Ref) (err : Error) (ch1 : ChargeMem)
    (hm : e.repo.m i = some a) (hb : (e.payments a).OmiseCharge = some b)
    (hpending : (e.charges.cells b).Status = StatusPending)
    (hget : c.GetCharge (e.charges.cells b).ID k e.charges = (.ret val (some err), k1, ch1)) :
    (NewMemService c).Find i k e
      = { result := .ret none (some err), client := k1, repo := { e with charges := ch1 },
          calls := [.Find i, .GetCharge (e.charges.cells b).ID] } := by
  simp [memService.Find, NewMemService, inmem_Find_eq_some i e a hm, hb, hpending, hget]

/-- C8: when the repository's `Find(id)` returns a pending payment (its charge,
whose status `Find` reads, is pending) and `GetCharge` returns an error `e`,
`service.Find(id)` returns `(nil, e)`; its calls are that `Find` and that
`GetCharge` and no other: no `UpdateStatus` on any id, `Find` once; so the
repository is in the state its one lookup left.  Over the in-memory
repository, whose lookup writes nothing: the map, the id counter, the payment
objects and the clock are after the call what they were before it, and the
charge objects are as the failing `GetCharge` left them; in a state the
service has reached with a gateway client that writes to no charge object
once allocated, every stored record is after the call what it was before. -/
theorem Find_getCharge_error {κ ρ : Type} (client : Client κ) (repo : Repository ρ)
    (id : Int) (k k1 : κ) (r r1 : ρ) (p : Payment) (oc : OmiseCharge)
    (val : Option OmiseCharge) (e : Error)
    (hfind : repo.Find id r = (.ret (some p) none, r1))
    (hcharge : p.OmiseCharge = some oc)
    (hpending : oc.Status = StatusPending)
    (hget : client.GetCharge oc.ID k = (.ret val (some e), k1)) :
    ((NewService client repo).Find id k r).result = .ret none (some e)
    ∧ ((NewService client repo).Find id k r).calls = [.Find id, .GetCharge oc.ID]
    ∧ (∀ (i : Int) (status : Status),
        Call.UpdateStatus i status ∉ ((NewService client repo).Find id k r).calls)
    ∧ ((NewService client repo).Find id k r).calls.count (Call.Find id) = 1
    ∧ ((NewService client repo).Find id k r).repo = r1
    ∧ ((NewService client repo).Find id k r).client = k1
    ∧ (∀ (κ2 : Type) (c : PtrClient κ2) (k2 k3 : κ2) (env : Env) (a b : Ref)
        (val2 : Option Ref) (ch1 : ChargeMem),
        env.repo.m id = some a → (env.payments a).OmiseCharge = some b →
        (env.charges.cells b).Status = StatusPending →
        c.GetCharge (env.charges.cells b).ID k2 env.charges = (.ret val2 (some e), k3, ch1) →
        ((NewMemService c).Find id k2 env).result = .ret none (some e)
        ∧ ((NewMemService c).Find id k2 env).calls
            = [.Find id, .GetCharge (env.charges.cells b).ID]
        ∧ ((NewMemService c).Find id k2 env).repo.repo = env.repo
        ∧ ((NewMemService c).Find id k2 env).repo.payments = env.payments
        ∧ ((NewMemService c).Find id k2 env).repo.nextPayment = env.nextPayment
        ∧ ((NewMemService c).Find id k2 env).repo.clock = env.clock
        ∧ ((NewMemService c).Find id k2 env).repo.charges = ch1
        ∧ (FreshClient c → Reachable c (k2, env) →
            ∀ i : Int, ((NewMemService c).Find id k2 env).repo.record i = env.record i)) := by
  have hrun : (NewService client repo).Find id k r
      = ⟨.ret none (some e), k1, r1, [.Find id, .GetCharge oc.ID]⟩ := by
    simp [service.Find, NewService, hfind, hcharge, hpending, hget]
  rw [hrun]
  refine ⟨rfl, rfl, ?_, ?_, rfl, rfl, ?_⟩
  · intro i status h
    simp at h
  · simp
  · intro κ2 c k2 k3 env a b val2 ch1 hm hb hpend hg
    rw [memFind_getCharge_error c k2 k3 env id a b val2 e ch1 hm hb hpend hg]
    refine ⟨rfl, rfl, rfl, rfl, rfl, rfl, rfl, ?_⟩
    intro hfresh hreach i
    have hbase := BaseInv_of_Reachable c (k2, env) hreach
    have hf := FreshInv_of_Reachable c hfresh (k2, env) hreach
    have hkeep : ∀ y : Ref, y < env.charges.next → ch1.cells y = env.charges.cells y := by
      intro y hy
      have := (hfresh.2 (env.charges.cells b).ID k2 env.charges).2 y hy
      rw [hg] at this
      exact this
    cases hmi : env.repo.m i with
    | none =>
      have hmi2 : ({ env with charges := ch1 } : Env).repo.m i = none := hmi
      simp [Env.record, hmi, hmi2]
    | some a2 =>
      have hmi2 : ({ env with charges := ch1 } : Env).repo.m i = some a2 := hmi
      obtain ⟨_, _, _, _, b2, hb2⟩ := hbase.2.2 i a2 hmi
      have hb3 : (env.payments a2).OmiseCharge = some b2 := hb2
      have hcell := hkeep b2 (hf.1 i a2 b2 hmi hb2).1
      simp [Env.record, Env.payment, hmi, hmi2, hb3, hcell]

/-- Witness of C8: the test case "GetCharge error" with the mock repository; a
store whose lookup reads only (`droppingRepository`, payment 1 persisted as
pending), which is after the call in the state it was in before; and the
in-memory store that holds payment 1, pending, with a gateway whose
`GetCharge` fails. -/
theorem Find_getCharge_error_witness :
    (((NewService (getChargeTestClient none (some errSomeError)).toClient droppingRepository
          ).Find 1 () (StatusPending, true)).result = .ret none (some errSomeError)
      ∧ ((NewService (getChargeTestClient none (some errSomeError)).toClient droppingRepository
          ).Find 1 () (StatusPending, true)).calls = [.Find 1, .GetCharge "charge-1"]
      ∧ ((NewService (getChargeTestClient none (some errSomeError)).toClient droppingRepository
          ).Find 1 () (StatusPending, true)).repo = (StatusPending, true))
    ∧ (((NewService (getChargeTestClient none (some errSomeError)).toClient
          (findTestRepository (some (testPayment StatusPending testNow), none) (none, none)
            none).toRepository).Find 1 () 0).result = .ret none (some errSomeError)
      ∧ ((NewService (getChargeTestClient none (some errSomeError)).toClient
          (findTestRepository (some (testPayment StatusPending testNow), none) (none, none)
            none).toRepository).Find 1 () 0).calls = [.Find 1, .GetCharge "charge-1"])
    ∧ (((NewMemService (getChargeTestClient none (some errSomeError)).toClient.alloc).Find 1
          () afterCreate.2).result = .ret none (some errSomeError)
      ∧ ((NewMemService (getChargeTestClient none (some errSomeError)).toClient.alloc).Find 1
          () afterCreate.2).calls = [.Find 1, .GetCharge "charge-1"]
      ∧ ((NewMemService (getChargeTestClient none (some errSomeError)).toClient.alloc).Find 1
          () afterCreate.2).repo.repo = afterCreate.2.repo
      ∧ ((NewMemService (getChargeTestClient none (some errSomeError)).toClient.alloc).Find 1
          () afterCreate.2).repo.payments = afterCreate.2.payments
      ∧ ((NewMemService (getChargeTestClient none (some errSomeError)).toClient.alloc).Find 1
          () afterCreate.2).repo.charges = afterCreate.2.charges) :=
  ⟨⟨(Find_getCharge_error (getChargeTestClient none (some errSomeError)).toClient
        droppingRepository 1 () () (StatusPending, true) (StatusPending, true)
        (testPayment StatusPending testNow) (testCharge StatusPending) none errSomeError
        rfl rfl rfl rfl).1,
     (Find_getCharge_error (getChargeTestClient none (some errSomeError)).toClient
        droppingRepository 1 () () (StatusPending, true) (StatusPending, true)
        (testPayment StatusPending testNow) (testCharge StatusPending) none errSomeError
        rfl rfl rfl rfl).2.1,
     (Find_getCharge_error (getChargeTestClient none (some errSomeError)).toClient
        droppingRepository 1 () () (StatusPending, true) (StatusPending, true)
        (testPayment StatusPending testNow) (testCharge StatusPending) none errSomeError
        rfl rfl rfl rfl).2.2.2.2.1⟩,
   ⟨(Find_getCharge_error (getChargeTestClient none (some errSomeError)).toClient
        (findTestRepository (some (testPayment StatusPending testNow), none) (none, none)
          none).toRepository 1 () () 0 1
        (testPayment StatusPending testNow) (testCharge StatusPending) none errSomeError
        rfl rfl rfl rfl).1,
     (Find_getCharge_error (getChargeTestClient none (some errSomeError)).toClient
        (findTestRepository (some (testPayment StatusPending testNow), none) (none, none)
          none).toRepository 1 () () 0 1
        (testPayment StatusPending testNow) (testCharge StatusPending) none errSomeError
        rfl rfl rfl rfl).2.1⟩,
   ⟨((Find_getCharge_error (getChargeTestClient none (some errSomeError)).toClient
        droppingRepository 1 () () (StatusPending, true) (StatusPending, true)
        (testPayment StatusPending testNow) (testCharge StatusPending) none errSomeError
        rfl rfl rfl rfl).2.2.2.2.2.2 Unit
        (getChargeTestClient none (some errSomeError)).toClient.alloc () () afterCreate.2 0 0
        none afterCreate.2.charges rfl rfl rfl rfl).1,
     ((Find_getCharge_error (getChargeTestClient none (some errSomeError)).toClient
        droppingRepository 1 () () (StatusPending, true) (StatusPending, true)
        (testPayment StatusPending testNow) (testCharge StatusPending) none errSomeError
        rfl rfl rfl rfl).2.2.2.2.2.2 Unit
        (getChargeTestClient none (some errSomeError)).toClient.alloc () () afterCreate.2 0 0
        none afterCreate.2.charges rfl rfl rfl rfl).2.1,
     ((Find_getCharge_error (getChargeTestClient none (some errSomeError)).toClient
        droppingRepository 1 () () (StatusPending, true) (StatusPending, true)
        (testPayment StatusPending testNow) (testCharge StatusPending) none errSomeError
        rfl rfl rfl rfl).2.2.2.2.2.2 Unit
        (getChargeTestClient none (some errSomeError)).toClient.alloc () () afterCreate.2 0 0
        none afterCreate.2.charges rfl rfl rfl rfl).2.2.1,
     ((Find_getCharge_error (getChargeTestClient none (some errSomeError)).toClient
        droppingRepository 1 () () (StatusPending, true) (StatusPending, true)
        (testPayment StatusPending testNow) (testCharge StatusPending) none errSomeError
        rfl rfl rfl rfl).2.2.2.2.2.2 Unit
        (getChargeTestClient none (some errSomeError)).toClient.alloc () () afterCreate.2 0 0
        none afterCreate.2.charges rfl rfl rfl rfl).2.2.2.1,
     ((Find_getCharge_error (getChargeTestClient none (some errSomeError)).toClient
        droppingRepository 1 () () (StatusPending, true) (StatusPending, true)
        (testPayment StatusPending testNow) (testCharge StatusPending) none errSomeError
        rfl rfl rfl rfl).2.2.2.2.2.2 Unit
        (getChargeTestClient none (some errSomeError)).toClient.alloc () () afterCreate.2 0 0
        none afterCreate.2.charges rfl rfl rfl rfl).2.2.2.2.2.2.1⟩⟩

/-! ### C13, C4: status and charge status when charges are not shared -/

/-- In a store where every stored payment has a charge of its own with the
payment's status, the stored payment mirrors its charge. -/
theorem mirror_of_inv (e : Env) (hb : BaseInv e) (h : FreshInv e) (i : Int) (a : Ref)
    (hm : e.repo.m i = some a) :
    ∃ oc : OmiseCharge, (e.payment a).OmiseCharge = some oc ∧ (e.payment a).Status = oc.Status := by
  obtain ⟨_, _, _, _, b, hbc⟩ := hb.2.2 i a hm
  refine ⟨e.charges.cells b, by simp [Env.payment, hbc], ?_⟩
  exact ((h.1 i a b hm hbc).2).symm

/-- C13 fails as stated: the gateway client returns the pointer to one charge
object from two `CreatePaymentRequest` calls.  After those two calls and
`Find(1)`, a state the service reaches, the stored payment 2 has status
"pending" and its charge has status "successful"; the test of `service.Find`
on the charge status finds it not pending while the payment status is. -/
theorem status_mirrors_charge_counterexample :
    Reachable sharingClient afterSharedFind
    ∧ ∃ (p : Payment) (oc : OmiseCharge),
        afterSharedFind.2.record 2 = some p ∧ p.OmiseCharge = some oc
        ∧ p.Status = StatusPending ∧ oc.Status = StatusSuccessful
        ∧ p.Status ≠ oc.Status
        ∧ ¬ (oc.Status ≠ StatusPending ↔ p.Status ≠ StatusPending) :=
  ⟨⟨[.CreatePaymentRequest testRequest, .CreatePaymentRequest testRequest, .Find 1], 0,
      testClock, sharedCharges, rfl⟩,
   afterSharedFind.2.payment 1, afterSharedFind.2.charges.cells 0, rfl, rfl, by decide,
   by decide, by decide, by decide⟩

/-- C13, amended: a payment's status mirrors its charge's status when the
gateway client allocates a new charge object for every charge `Charge` returns
and writes to no charge object once allocated.  For the service over the
in-memory repository with such a client, in every state reached from an empty
store by a finite sequence of `CreatePaymentRequest` and `Find` calls: every
stored payment has a charge whose status is the payment's status; every
payment the next service call returns has a charge whose status is the
payment's status; and for the payment the repository's `Find` returns, the
test `payment.OmiseCharge.Status != StatusPending` of `service.Find` decides
as the same test on `payment.Status`. -/
theorem status_mirrors_charge {κ : Type} (c : PtrClient κ) (w : κ × Env)
    (hfresh : FreshClient c) (hreach : Reachable c w) :
    (∀ (i : Int) (p : Payment), w.2.record i = some p →
        ∃ oc : OmiseCharge, p.OmiseCharge = some oc ∧ p.Status = oc.Status)
    ∧ (∀ (op : Op) (q : Payment) (err : Option Error),
        (exec c op w).result = .ret (some q) err →
        ∃ oc : OmiseCharge, q.OmiseCharge = some oc ∧ q.Status = oc.Status)
    ∧ (∀ (id : Int) (a : Ref),
        (PaymentRepository.Find id w.2).1 = .ret (some a) none →
        ∃ oc : OmiseCharge, (w.2.payment a).OmiseCharge = some oc
          ∧ (oc.Status ≠ StatusPending ↔ (w.2.payment a).Status ≠ StatusPending)) := by
  have hb := BaseInv_of_Reachable c w hreach
  have hf := FreshInv_of_Reachable c hfresh w hreach
  refine ⟨?_, ?_, ?_⟩
  · intro i p hp
    cases hm : w.2.repo.m i with
    | none => simp [Env.record, hm] at hp
    | some a =>
      simp only [Env.record, hm, Option.map_some', Option.some.injEq] at hp
      rw [← hp]
      exact mirror_of_inv w.2 hb hf i a hm
  · intro op q err h
    obtain ⟨i, a, hm, hq⟩ := exec_result_stored c op w q err h
    rw [hq]
    exact mirror_of_inv _ (BaseInv_step c op w hb) (FreshInv_step c hfresh op w hb hf) i a hm
  · intro id a hfind
    have hm : w.2.repo.m id = some a := by
      cases hmid : w.2.repo.m id with
      | none =>
        rw [inmem_Find_eq_none id w.2 hmid] at hfind
        simp at hfind
      | some a1 =>
        rw [inmem_Find_eq_some id w.2 a1 hmid] at hfind
        simp only [Outcome.ret.injEq, Option.some.injEq] at hfind
        rw [hfind.1]
    obtain ⟨oc, hoc, hst⟩ := mirror_of_inv w.2 hb hf id a hm
    exact ⟨oc, hoc, by rw [hst]⟩

/-- Witness of C13 amended: with the gateway that builds a new charge for
every answer, in the state where payment 1 is stored: every record of that
store mirrors its charge, so does the payment `Find(1)` returns once the
gateway reports "successful", and the test on the charge of payment 1 decides
as the test on its status. -/
theorem status_mirrors_charge_witness :
    (∀ (i : Int) (p : Payment), afterCreate.2.record i = some p →
        ∃ oc : OmiseCharge, p.OmiseCharge = some oc ∧ p.Status = oc.Status)
    ∧ (∃ oc : OmiseCharge, settledPayment.OmiseCharge = some oc
        ∧ settledPayment.Status = oc.Status)
    ∧ (exec (settlingClient StatusSuccessful).toClient.alloc (.Find 1) afterCreate).result
        = .ret (some settledPayment) none
    ∧ (∃ oc : OmiseCharge, (afterCreate.2.payment 0).OmiseCharge = some oc
        ∧ (oc.Status ≠ StatusPending ↔ (afterCreate.2.payment 0).Status ≠ StatusPending)) :=
  ⟨(status_mirrors_charge (settlingClient StatusSuccessful).toClient.alloc afterCreate
      (alloc_FreshClient _)
      ⟨[.CreatePaymentRequest testRequest], (), testClock, emptyCharges, rfl⟩).1,
   (status_mirrors_charge (settlingClient StatusSuccessful).toClient.alloc afterCreate
      (alloc_FreshClient _)
      ⟨[.CreatePaymentRequest testRequest], (), testClock, emptyCharges, rfl⟩).2.1 (.Find 1)
      settledPayment none (by decide),
   by decide,
   (status_mirrors_charge (settlingClient StatusSuccessful).toClient.alloc afterCreate
      (alloc_FreshClient _)
      ⟨[.CreatePaymentRequest testRequest], (), testClock, emptyCharges, rfl⟩).2.2 1 0 rfl⟩

/-- A payment object other than the one `UpdateStatus` wrote, whose charge
object is another one and was not written by the client, is as before. -/
theorem updated_payment_other (e : Env) (ch1 : ChargeMem) (a b : Ref) (status : Status)
    (a2 b2 : Ref) (ha : a2 ≠ a) (hch : (e.payments a2).OmiseCharge = some b2) (hb : b2 ≠ b)
    (hcell : ch1.cells b2 = e.charges.cells b2) :
    (({ e with charges := ch1 } : Env).updated a b status).payment a2 = e.payment a2 := by
  simp [Env.payment, Env.updated, ha, hch, hb, hcell]

/-- C4 fails as stated: the gateway client returns the pointer to one charge
object from two `CreatePaymentRequest` calls, a state the service reaches.
Payment 1 is stored pending, `GetCharge` reports "successful", and `Find(1)`
runs the update; the stored record 2, whose charge had status "pending", has
a charge with status "successful" afterwards. -/
theorem Find_pending_inmem_counterexample :
    Reachable sharingClient afterSharedCreates
    ∧ (afterSharedCreates.2.record 1).map (fun p => p.Status) = some StatusPending
    ∧ (exec sharingClient (.Find 1) afterSharedCreates).calls
        = [.Find 1, .GetCharge "charge-1", .UpdateStatus 1 StatusSuccessful, .Find 1]
    ∧ (afterSharedCreates.2.record 2).map (fun p => p.OmiseCharge.map (fun oc => oc.Status))
        = some (some StatusPending)
    ∧ ((exec sharingClient (.Find 1) afterSharedCreates).repo.record 2).map
        (fun p => p.OmiseCharge.map (fun oc => oc.Status)) = some (some StatusSuccessful)
    ∧ (exec sharingClient (.Find 1) afterSharedCreates).repo.record 2
        ≠ afterSharedCreates.2.record 2 :=
  ⟨⟨[.CreatePaymentRequest testRequest, .CreatePaymentRequest testRequest], 0, testClock,
      sharedCharges, rfl⟩,
   by decide, by decide, by decide, by decide, by decide⟩

/-- C4, amended: for the service over the in-memory repository with a gateway
client that allocates a new charge object for every charge `Charge` returns
and writes to no charge object once allocated, in a state the service has
reached: for a payment `p` stored under id `i` whose status is "pending" and a
charge that `GetCharge(p.OmiseCharge.ID)` returns without error, with status
`s`, `service.Find(i)` returns a payment `q` whose status and whose charge's
status are `s`; the store then holds `q` under `i`; `q` has the id, amount,
currency and creation instant of `p`, its charge has the id, amount, currency,
authorize URI, source type and return URI of the charge of `p`; every other
record and the id counter are as before. -/
theorem Find_pending_inmem {κ : Type} (c : PtrClient κ) (w : κ × Env) (i : Int) (a b f : Ref)
    (k1 : κ) (ch1 : ChargeMem)
    (hfresh : FreshClient c)
    (hreach : Reachable c w)
    (hstored : w.2.repo.m i = some a)
    (hpending : (w.2.payments a).Status = StatusPending)
    (hcharge : (w.2.payments a).OmiseCharge = some b)
    (hget : c.GetCharge (w.2.charges.cells b).ID w.1 w.2.charges
      = (.ret (some f) none, k1, ch1)) :
    ∃ (q : Payment) (qc : OmiseCharge),
      ((NewMemService c).Find i w.1 w.2).result = .ret (some q) none
      ∧ q.Status = (ch1.cells f).Status ∧ q.OmiseCharge = some qc
      ∧ qc.Status = (ch1.cells f).Status
      ∧ ((NewMemService c).Find i w.1 w.2).repo.record i = some q
      ∧ q.ID = (w.2.payments a).ID ∧ q.Amount = (w.2.payments a).Amount
      ∧ q.Currency = (w.2.payments a).Currency ∧ q.CreatedAt = (w.2.payments a).CreatedAt
      ∧ qc.ID = (w.2.charges.cells b).ID ∧ qc.Amount = (w.2.charges.cells b).Amount
      ∧ qc.Currency = (w.2.charges.cells b).Currency
      ∧ qc.AuthorizeURI = (w.2.charges.cells b).AuthorizeURI
      ∧ qc.SourceType = (w.2.charges.cells b).SourceType
      ∧ qc.ReturnURI = (w.2.charges.cells b).ReturnURI
      ∧ (∀ j : Int, j ≠ i →
          ((NewMemService c).Find i w.1 w.2).repo.record j = w.2.record j)
      ∧ ((NewMemService c).Find i w.1 w.2).repo.repo.currentID = w.2.repo.currentID := by
  have hb := BaseInv_of_Reachable c w hreach
  have hf := FreshInv_of_Reachable c hfresh w hreach
  obtain ⟨hlt, hst⟩ := hf.1 i a b hstored hcharge
  have hpend : (w.2.charges.cells b).Status = StatusPending := by rw [hst, hpending]
  have hkeep : ∀ y : Ref, y < w.2.charges.next → ch1.cells y = w.2.charges.cells y := by
    intro y hy
    have := (hfresh.2 (w.2.charges.cells b).ID w.1 w.2.charges).2 y hy
    rw [hget] at this
    exact this
  rw [memFind_pending c w.1 k1 w.2 i a b f ch1 hstored hcharge hpend hget]
  refine ⟨_, { ch1.cells b with Status := (ch1.cells f).Status }, rfl, ?_, ?_, rfl, ?_, ?_, ?_,
    ?_, ?_, ?_, ?_, ?_, ?_, ?_, ?_, ?_, rfl⟩
  · simp [Env.payment, Env.updated]
  · simp [Env.payment, Env.updated, hcharge]
  · simp [Env.record, Env.updated, hstored]
  · simp [Env.payment, Env.updated]
  · simp [Env.payment, Env.updated]
  · simp [Env.payment, Env.updated]
  · simp [Env.payment, Env.updated]
  · simp [hkeep b hlt]
  · simp [hkeep b hlt]
  · simp [hkeep b hlt]
  · simp [hkeep b hlt]
  · simp [hkeep b hlt]
  · simp [hkeep b hlt]
  · intro j hj
    cases hmj : w.2.repo.m j with
    | none => simp [Env.record, Env.updated, hmj]
    | some a2 =>
      obtain ⟨_, _, _, hid2, b2, hb2⟩ := hb.2.2 j a2 hmj
      have ha : a2 ≠ a := by
        intro hcon
        rw [hcon] at hmj
        exact hj (hf.2 j i a a b hmj hstored hcharge hcharge)
      have hbb : b2 ≠ b := by
        intro hcon
        rw [hcon] at hb2
        exact hj (hf.2 j i a2 a b hmj hstored hb2 hcharge)
      have hcell := hkeep b2 (hf.1 j a2 b2 hmj hb2).1
      have hother := updated_payment_other w.2 ch1 a b (ch1.cells f).Status a2 b2 ha hb2 hbb hcell
      have hm2 : (({ w.2 with charges := ch1 } : Env).updated a b (ch1.cells f).Status).repo.m j
          = some a2 := hmj
      simp only [Env.record, hm2, hmj, Option.map_some', hother]

/-- Witness of C4 amended: scenario B.  Payment 1 is stored pending with charge
`charge-1`, the gateway, which builds a new charge for every answer, now
reports "successful". -/
theorem Find_pending_inmem_witness :
    ∃ (q : Payment) (qc : OmiseCharge),
      ((NewMemService (settlingClient StatusSuccessful).toClient.alloc).Find 1
          afterCreate.1 afterCreate.2).result = .ret (some q) none
      ∧ q.Status = StatusSuccessful ∧ q.OmiseCharge = some qc ∧ qc.Status = StatusSuccessful
      ∧ ((NewMemService (settlingClient StatusSuccessful).toClient.alloc).Find 1
          afterCreate.1 afterCreate.2).repo.record 1 = some q
      ∧ q.ID = 1 ∧ q.Amount = 20000 ∧ q.Currency = "THB" ∧ q.CreatedAt = testNow
      ∧ qc.ID = "charge-1" ∧ qc.Amount = 20000 ∧ qc.Currency = "THB"
      ∧ qc.AuthorizeURI = "http://authuri.com" ∧ qc.SourceType = "internet_banking_scb"
      ∧ qc.ReturnURI = "http://returnuri.com"
      ∧ (∀ j : Int, j ≠ 1 →
          ((NewMemService (settlingClient StatusSuccessful).toClient.alloc).Find 1
            afterCreate.1 afterCreate.2).repo.record j = afterCreate.2.record j)
      ∧ ((NewMemService (settlingClient StatusSuccessful).toClient.alloc).Find 1
          afterCreate.1 afterCreate.2).repo.repo.currentID = afterCreate.2.repo.currentID :=
  Find_pending_inmem (settlingClient StatusSuccessful).toClient.alloc afterCreate 1 0 0 1 ()
    ((settlingClient StatusSuccessful).toClient.alloc.GetCharge "charge-1" ()
      afterCreate.2.charges).2.2
    (alloc_FreshClient _)
    ⟨[.CreatePaymentRequest testRequest], (), testClock, emptyCharges, rfl⟩ rfl rfl rfl rfl

/-! ### C14: where the stored statuses come from -/

theorem KnownInv_new (clock : Clock) (charges : ChargeMem) : KnownInv (NewEnv clock charges) := by
  intro i a h
  simp [NewEnv, NewPaymentRepository] at h

theorem KnownInv_step {κ : Type} (c : PtrClient κ) (op : Op) (w : κ × Env)
    (hknown : ReportsKnownStatuses c) (hb : BaseInv w.2) (h : KnownInv w.2) :
    KnownInv (step c w op).2 := by
  simp only [step]
  rcases exec_env_cases c op w with ⟨ch1, h1, _⟩ | ⟨req, charge, k1, ch1, _, hcharge, h2⟩ |
    ⟨id, a, b, f, k1, ch1, _, hm, hbc, _, hget, h3⟩
  · rw [h1]
    exact h
  · rw [h2]
    intro i a hi
    simp only [PaymentRepository.Create, Env.allocated] at hi ⊢
    by_cases hk : i = w.2.repo.currentID + 1
    · simp only [hk, if_true, Option.some.injEq] at hi
      subst hi
      simp only [if_true]
      exact hknown.1 req w.1 k1 w.2.charges ch1 charge hcharge
    · simp only [hk, if_false] at hi
      have hne : a ≠ w.2.nextPayment := Nat.ne_of_lt (hb.2.2 i a hi).2.2.1
      simp only [hne, if_false]
      exact h i a hi
  · rw [h3]
    intro j a2 hj
    simp only [Env.updated] at hj ⊢
    by_cases ha : a2 = a
    · simp only [ha, if_true]
      exact hknown.2 _ w.1 k1 w.2.charges ch1 f hget
    · simp only [ha, if_false]
      exact h j a2 hj

theorem KnownInv_runOps {κ : Type} (c : PtrClient κ) (ops : List Op) (w : κ × Env)
    (hknown : ReportsKnownStatuses c) (hb : BaseInv w.2) (h : KnownInv w.2) :
    KnownInv (runOps c ops w).2 := by
  induction ops generalizing w with
  | nil => exact h
  | cons op rest ih =>
    exact ih (step c w op) (BaseInv_step c op w hb) (KnownInv_step c op w hknown hb h)

theorem KnownInv_of_Reachable {κ : Type} (c : PtrClient κ) (w : κ × Env)
    (hknown : ReportsKnownStatuses c) (h : Reachable c w) : KnownInv w.2 := by
  obtain ⟨ops, k0, clock, charges, rfl⟩ := h
  exact KnownInv_runOps c ops _ hknown (BaseInv_new clock charges) (KnownInv_new clock charges)

/-- C14 fails as stated: the gateway reports the status "refunded", which is
none of the five.  `CreatePaymentRequest` returns no error: it returns a
payment with status "refunded" and the store holds it under key 1.  Likewise
when `GetCharge` reports "refunded" for the pending payment 1: `Find(1)`
returns no error and the store holds payment 1 with status "refunded". -/
theorem status_enumeration_counterexample :
    ¬ IsKnownStatus unknownStatus
    ∧ (∃ p : Payment,
        ((NewMemService
            (chargeTestClient unknownStatus "charge-1" "http://authuri.com" none).toClient.alloc
            ).CreatePaymentRequest testRequest () (NewEnv testClock emptyCharges)).result
          = .ret (some p) none
        ∧ p.Status = unknownStatus
        ∧ ((NewMemService
            (chargeTestClient unknownStatus "charge-1" "http://authuri.com" none).toClient.alloc
            ).CreatePaymentRequest testRequest () (NewEnv testClock emptyCharges)
          ).repo.record 1 = some p)
    ∧ (∃ q : Payment,
        ((NewMemService (settlingClient unknownStatus).toClient.alloc).Find 1
            afterCreate.1 afterCreate.2).result = .ret (some q) none
        ∧ q.Status = unknownStatus
        ∧ ((NewMemService (settlingClient unknownStatus).toClient.alloc).Find 1
            afterCreate.1 afterCreate.2).repo.record 1 = some q) := by
  refine ⟨by decide, ⟨_, rfl, rfl, rfl⟩, ⟨_, rfl, rfl, rfl⟩⟩

/-- C14, amended: `Status` is a string type and nothing validates it.  Over the
in-memory repository, for every gateway client, in every state the service
reaches: whatever status a charge returned by `Charge` has, `CreatePaymentRequest`
returns no error, returns a payment with that status and stores it; whatever
status a charge returned by `GetCharge` has, `Find` on a stored payment whose
charge has status "pending" returns no error, returns the payment with that
status and stores it.  If the gateway client reports only the five named
statuses, every stored payment and every payment a service call returns has
one of the five. -/
theorem status_from_gateway {κ : Type} (c : PtrClient κ) (w : κ × Env)
    (hreach : Reachable c w) :
    (∀ (req : Request) (charge : Ref) (k1 : κ) (ch1 : ChargeMem),
        c.Charge req w.1 w.2.charges = (.ret (some charge) none, k1, ch1) →
        ∃ q : Payment,
          ((NewMemService c).CreatePaymentRequest req w.1 w.2).result = .ret (some q) none
          ∧ q.Status = (ch1.cells charge).Status
          ∧ ((NewMemService c).CreatePaymentRequest req w.1 w.2).repo.record q.ID = some q)
    ∧ (∀ (id : Int) (a b f : Ref) (k1 : κ) (ch1 : ChargeMem),
        w.2.repo.m id = some a → (w.2.payments a).OmiseCharge = some b →
        (w.2.charges.cells b).Status = StatusPending →
        c.GetCharge (w.2.charges.cells b).ID w.1 w.2.charges = (.ret (some f) none, k1, ch1) →
        ∃ q : Payment,
          ((NewMemService c).Find id w.1 w.2).result = .ret (some q) none
          ∧ q.Status = (ch1.cells f).Status
          ∧ ((NewMemService c).Find id w.1 w.2).repo.record id = some q)
    ∧ (ReportsKnownStatuses c →
        (∀ (i : Int) (p : Payment), w.2.record i = some p → IsKnownStatus p.Status)
        ∧ (∀ (op : Op) (q : Payment) (err : Option Error),
            (exec c op w).result = .ret (some q) err → IsKnownStatus q.Status)) := by
  have hb := BaseInv_of_Reachable c w hreach
  refine ⟨?_, ?_, ?_⟩
  · intro req charge k1 ch1 hc
    rw [memCreate_ok c w.1 k1 w.2 req charge ch1 hc]
    refine ⟨_, rfl, ?_, ?_⟩
    · simp [Env.payment, PaymentRepository.Create, Env.allocated]
    · simp [Env.record, Env.payment, PaymentRepository.Create, Env.allocated]
  · intro id a b f k1 ch1 hm hbc hpend hg
    rw [memFind_pending c w.1 k1 w.2 id a b f ch1 hm hbc hpend hg]
    refine ⟨_, rfl, ?_, ?_⟩
    · simp [Env.payment, Env.updated]
    · simp [Env.record, Env.updated, hm]
  · intro hknown
    have hk := KnownInv_of_Reachable c w hknown hreach
    refine ⟨?_, ?_⟩
    · intro i p hp
      cases hm : w.2.repo.m i with
      | none => simp [Env.record, hm] at hp
      | some a =>
        simp only [Env.record, hm, Option.map_some', Option.some.injEq] at hp
        rw [← hp]
        exact hk i a hm
    · intro op q err h
      obtain ⟨i, a, hm, hq⟩ := exec_result_stored c op w q err h
      rw [hq]
      exact KnownInv_step c op w hknown hb hk i a hm

theorem settlingClient_reports_known :
    ReportsKnownStatuses (settlingClient StatusSuccessful).toClient.alloc := by
  constructor
  · intro req k k1 ch ch1 charge h
    simp only [settlingClient, mockClient.toClient, Client.alloc, Prod.mk.injEq,
      Outcome.ret.injEq, Option.some.injEq] at h
    obtain ⟨⟨h1, _⟩, _, h3⟩ := h
    rw [← h3, ← h1]
    simp only [if_true]
    exact Or.inl rfl
  · intro id k k1 ch ch1 charge h
    simp only [settlingClient, mockClient.toClient, Client.alloc, Prod.mk.injEq,
      Outcome.ret.injEq, Option.some.injEq] at h
    obtain ⟨⟨h1, _⟩, _, h3⟩ := h
    rw [← h3, ← h1]
    simp only [if_true]
    exact Or.inr (Or.inl rfl)

/-- Witness of C14 amended: with the gateway that opens charges as "pending"
and reports them "successful", a second payment is created with the status
the gateway reported, `Find(1)` stores the status the gateway reported, and
every record of the store that holds payment 1 has one of the five statuses. -/
theorem status_from_gateway_witness :
    (∃ q : Payment,
        ((NewMemService (settlingClient StatusSuccessful).toClient.alloc
            ).CreatePaymentRequest testRequest afterCreate.1 afterCreate.2).result
          = .ret (some q) none
        ∧ q.Status = StatusPending
        ∧ ((NewMemService (settlingClient StatusSuccessful).toClient.alloc
            ).CreatePaymentRequest testRequest afterCreate.1 afterCreate.2).repo.record q.ID
            = some q)
    ∧ (∃ q : Payment,
        ((NewMemService (settlingClient StatusSuccessful).toClient.alloc).Find 1
            afterCreate.1 afterCreate.2).result = .ret (some q) none
        ∧ q.Status = StatusSuccessful
        ∧ ((NewMemService (settlingClient StatusSuccessful).toClient.alloc).Find 1
            afterCreate.1 afterCreate.2).repo.record 1 = some q)
    ∧ (∀ (i : Int) (p : Payment), afterCreate.2.record i = some p → IsKnownStatus p.Status) :=
  ⟨(status_from_gateway (settlingClient StatusSuccessful).toClient.alloc afterCreate
      ⟨[.CreatePaymentRequest testRequest], (), testClock, emptyCharges, rfl⟩).1 testRequest
      1 ()
      ((settlingClient StatusSuccessful).toClient.alloc.Charge testRequest ()
        afterCreate.2.charges).2.2 rfl,
   (status_from_gateway (settlingClient StatusSuccessful).toClient.alloc afterCreate
      ⟨[.CreatePaymentRequest testRequest], (), testClock, emptyCharges, rfl⟩).2.1 1 0 0 1 ()
      ((settlingClient StatusSuccessful).toClient.alloc.GetCharge "charge-1" ()
        afterCreate.2.charges).2.2 rfl rfl rfl rfl,
   ((status_from_gateway (settlingClient StatusSuccessful).toClient.alloc afterCreate
      ⟨[.CreatePaymentRequest testRequest], (), testClock, emptyCharges, rfl⟩).2.2
      settlingClient_reports_known).1⟩

/-! ### The in-memory repository on its own: keys and ids -/

theorem KeysInv_new (e0 : Env) (hnew : e0.repo = NewPaymentRepository) : KeysInv [] e0 := by
  refine ⟨?_, ?_, ?_, ?_, ?_⟩
  · rw [hnew]; rfl
  · intro k h1 h2
    simp only [List.length_nil, Nat.cast_zero] at h2
    omega
  · intro k _
    rw [hnew]; rfl
  · intro k a h
    rw [hnew] at h
    simp [NewPaymentRepository] at h
  · intro _ k a h
    rw [hnew] at h
    simp [NewPaymentRepository] at h

theorem KeysInv_Create (created : List Ref) (e : Env) (a : Ref) (h : KeysInv created e) :
    KeysInv (created ++ [a]) (PaymentRepository.Create (some a) e).2 := by
  obtain ⟨hid, hin, hout, hmem, hids⟩ := h
  have hlen : ((created ++ [a]).length : Int) = (created.length : Int) + 1 := by
    simp
  refine ⟨?_, ?_, ?_, ?_, ?_⟩
  · simp only [PaymentRepository.Create, hid, hlen]
  · intro k h1 h2
    rw [hlen] at h2
    simp only [PaymentRepository.Create, hid]
    by_cases hk : k = (created.length : Int) + 1
    · simp [hk]
    · simp only [hk, if_false]
      exact hin k h1 (by omega)
  · intro k hk
    rw [hlen] at hk
    simp only [PaymentRepository.Create, hid]
    have hne : k ≠ (created.length : Int) + 1 := by omega
    simp only [hne, if_false]
    exact hout k (by omega)
  · intro k a1 hk
    simp only [PaymentRepository.Create, hid] at hk
    by_cases hkn : k = (created.length : Int) + 1
    · simp only [hkn, if_true, Option.some.injEq] at hk
      rw [← hk]
      simp
    · simp only [hkn, if_false] at hk
      exact List.mem_append_left _ (hmem k a1 hk)
  · intro hnodup k a1 hk
    have hnd : created.Nodup ∧ a ∉ created := by
      rw [List.nodup_append] at hnodup
      refine ⟨hnodup.1, ?_⟩
      intro hcon
      exact hnodup.2.2 hcon (List.mem_singleton.mpr rfl)
    simp only [PaymentRepository.Create, hid] at hk ⊢
    by_cases hkn : k = (created.length : Int) + 1
    · simp only [hkn, if_true, Option.some.injEq] at hk
      rw [← hk]
      simp [hkn]
    · simp only [hkn, if_false] at hk
      have hne : a1 ≠ a := by
        intro hcon
        rw [hcon] at hk
        exact hnd.2 (hmem k a hk)
      simp only [hne, if_false]
      exact hids hnd.1 k a1 hk

theorem KeysInv_UpdateStatus (created : List Ref) (e : Env) (id : Int) (status : Status)
    (h : KeysInv created e) : KeysInv created (PaymentRepository.UpdateStatus id status e).2 := by
  obtain ⟨hid, hin, hout, hmem, hids⟩ := h
  unfold PaymentRepository.UpdateStatus
  split
  · exact ⟨hid, hin, hout, hmem, hids⟩
  · rename_i a hm
    split
    · refine ⟨hid, hin, hout, hmem, ?_⟩
      intro hnodup k a1 hk
      have hk0 : e.repo.m k = some a1 := hk
      by_cases hx : a1 = a
      · simp only [hx, if_true]
        rw [← hx]
        exact hids hnodup k a1 hk0
      · simp only [hx, if_false]
        exact hids hnodup k a1 hk0
    · refine ⟨hid, hin, hout, hmem, ?_⟩
      intro hnodup k a1 hk
      have hk0 : e.repo.m k = some a1 := hk
      by_cases hx : a1 = a
      · simp only [hx, if_true]
        rw [← hx]
        exact hids hnodup k a1 hk0
      · simp only [hx, if_false]
        exact hids hnodup k a1 hk0

theorem KeysInv_repoRun (calls : List RepoCall) (created : List Ref) (e : Env)
    (h : KeysInv created e) : KeysInv (created ++ createdRefs calls) (repoRun calls e) := by
  induction calls generalizing created e with
  | nil =>
    simp only [createdRefs, List.append_nil]
    exact h
  | cons call rest ih =>
    cases call with
    | Create a =>
      have := ih (created ++ [a]) _ (KeysInv_Create created e a h)
      simp only [createdRefs]
      rw [List.append_assoc] at this
      exact this
    | Find id =>
      have h2 : KeysInv created (PaymentRepository.Find id e).2 := by
        rw [inmem_Find_snd]; exact h
      exact ih created _ h2
    | UpdateStatus id status =>
      exact ih created _ (KeysInv_UpdateStatus created e id status h)

theorem createdRefs_length (calls : List RepoCall) :
    (createdRefs calls).length = createCount calls := by
  induction calls with
  | nil => rfl
  | cons call rest ih =>
    cases call with
    | Create a => simp [createdRefs, createCount, ih]
    | Find id => exact ih
    | UpdateStatus id status => exact ih

/-- C11 fails as stated: `Create` writes the id and the instants through the
pointer it is handed and stores that pointer.  Handed one payment object
twice, the second `Create` leaves key 1 holding a record with `ID` 2 and the
instants of the second call, where it held `ID` 1 and the instants of the
first.  Handed a nil pointer, `Create` panics. -/
theorem Create_assigns_increasing_ids_counterexample :
    ((repoRun [.Create 0] repoTestEnv).record 1).map (fun p => (p.ID, p.CreatedAt, p.UpdatedAt))
        = some (1, testNow, testNow)
    ∧ ((repoRun [.Create 0, .Create 0] repoTestEnv).record 1).map
        (fun p => (p.ID, p.CreatedAt, p.UpdatedAt)) = some (2, testNow + 1, testNow + 1)
    ∧ (repoRun [.Create 0, .Create 0] repoTestEnv).record 1
        ≠ (repoRun [.Create 0] repoTestEnv).record 1
    ∧ (PaymentRepository.Create none repoTestEnv).1 = .panic := by
  refine ⟨by decide, by decide, by decide, by decide⟩

/-- C11, amended: `Create` of the in-memory store assigns unique, increasing
ids, and keeps the earlier records when every `Create` is handed a payment
object of its own.  Start from `NewPaymentRepository()` and make any calls on
the repository, `n - 1` of them `Create`; let `e` be the repository then.  The
next `Create`, the n-th, handed the pointer `a` to a payment object (not nil),
returns nil, sets that payment's `ID` to `n` and its `CreatedAt` and
`UpdatedAt` to one and the same reading of the clock, leaves its other fields
alone, and stores the pointer under key `n`, a key that held nothing; it
changes no other key, no other payment object and no charge object.  Before
it, `Find(k)` succeeds exactly for `k` in `1 .. n - 1`.  Every `Create` made
later, after any further calls, assigns a strictly larger id.  If `a` was
handed to none of the earlier `Create` calls, every earlier record is as
before; if no pointer was handed to two of the earlier `Create` calls, the
record under key `k` has `ID = k`. -/
theorem Create_assigns_increasing_ids (e0 : Env) (calls : List RepoCall) (a : Ref) (e : Env)
    (hnew : e0.repo = NewPaymentRepository) (he : e = repoRun calls e0) :
    (PaymentRepository.Create (some a) e).1 = .ret none
    ∧ (PaymentRepository.Create (some a) e).2.payments a
        = { e.payments a with ID := (createCount calls : Int) + 1, CreatedAt := e.clock 0,
                              UpdatedAt := e.clock 0 }
    ∧ (PaymentRepository.Create (some a) e).2.repo.m ((createCount calls : Int) + 1) = some a
    ∧ e.repo.m ((createCount calls : Int) + 1) = none
    ∧ (∀ k : Int, k ≠ (createCount calls : Int) + 1 →
        (PaymentRepository.Create (some a) e).2.repo.m k = e.repo.m k)
    ∧ (∀ x : Ref, x ≠ a → (PaymentRepository.Create (some a) e).2.payments x = e.payments x)
    ∧ (PaymentRepository.Create (some a) e).2.charges = e.charges
    ∧ (∀ k : Int, (∃ p, (PaymentRepository.Find k e).1 = .ret (some p) none)
        ↔ (1 ≤ k ∧ k ≤ (createCount calls : Int)))
    ∧ (∀ (later : List RepoCall) (a2 : Ref),
        ((PaymentRepository.Create (some a) e).2.payments a).ID
          < ((PaymentRepository.Create (some a2)
              (repoRun later (PaymentRepository.Create (some a) e).2)).2.payments a2).ID)
    ∧ (a ∉ createdRefs calls → ∀ k : Int, k ≠ (createCount calls : Int) + 1 →
        (PaymentRepository.Create (some a) e).2.record k = e.record k)
    ∧ ((createdRefs calls).Nodup →
        ∀ (k : Int) (p : Payment), e.record k = some p → p.ID = k) := by
  have hinv : KeysInv (createdRefs calls) e := by
    have := KeysInv_repoRun calls [] e0 (KeysInv_new e0 hnew)
    rw [List.nil_append] at this
    rw [he]
    exact this
  obtain ⟨hid, hin, hout, hmem, hids⟩ := hinv
  rw [createdRefs_length] at hid hin hout
  refine ⟨rfl, ?_, ?_, ?_, ?_, ?_, rfl, ?_, ?_, ?_, ?_⟩
  · simp [PaymentRepository.Create, hid]
  · simp [PaymentRepository.Create, hid]
  · exact hout _ (Or.inr (by omega))
  · intro k hk
    simp only [PaymentRepository.Create, hid, hk, if_false]
  · intro x hx
    simp only [PaymentRepository.Create, hx, if_false]
  · intro k
    constructor
    · rintro ⟨p, hp⟩
      by_contra hcon
      have hnone := hout k (by omega)
      rw [inmem_Find_eq_none k e hnone] at hp
      simp at hp
    · rintro ⟨h1, h2⟩
      obtain ⟨p, hp⟩ := hin k h1 h2
      exact ⟨p, by rw [inmem_Find_eq_some k e p hp]⟩
  · intro later a2
    have h1 := KeysInv_Create (createdRefs calls) e a ⟨by rw [createdRefs_length]; exact hid,
      by rw [createdRefs_length]; exact hin, by rw [createdRefs_length]; exact hout, hmem, hids⟩
    have h2 := (KeysInv_repoRun later _ _ h1).1
    have hfirst : ((PaymentRepository.Create (some a) e).2.payments a).ID
        = e.repo.currentID + 1 := by
      simp [PaymentRepository.Create]
    have hsecond : ((PaymentRepository.Create (some a2)
        (repoRun later (PaymentRepository.Create (some a) e).2)).2.payments a2).ID
        = (repoRun later (PaymentRepository.Create (some a) e).2).repo.currentID + 1 := by
      simp [PaymentRepository.Create]
    rw [hfirst, hsecond, h2, hid]
    simp only [List.length_append, List.length_singleton, createdRefs_length]
    push_cast
    omega
  · intro hfresh k hk
    cases hm : e.repo.m k with
    | none => simp [Env.record, PaymentRepository.Create, hid, hk, hm]
    | some a1 =>
      have hne : a1 ≠ a := by
        intro hcon
        rw [hcon] at hm
        exact hfresh (hmem k a hm)
      simp [Env.record, Env.payment, PaymentRepository.Create, hid, hk, hm, hne]
  · intro hnodup k p hp
    cases hm : e.repo.m k with
    | none => simp [Env.record, hm] at hp
    | some a1 =>
      simp only [Env.record, hm, Option.map_some', Option.some.injEq] at hp
      rw [← hp]
      exact hids hnodup k a1 hm

/-- Witness of C11 amended: after one `Create`, one `Find` and one
`UpdateStatus`, the second `Create`, handed another payment object, stores it
under the new key 2 with `ID` 2 and leaves record 1 as it was; `Find(1)`
succeeds and `Find(2)` does not before it; record 1 has `ID` 1; a third
`Create`, after one more `Find`, assigns a larger id. -/
theorem Create_assigns_increasing_ids_witness :
    (PaymentRepository.Create (some 1) sampleEnv).1 = .ret none
    ∧ (PaymentRepository.Create (some 1) sampleEnv).2.payments 1
        = { sampleEnv.payments 1 with ID := 2, CreatedAt := sampleEnv.clock 0,
                                      UpdatedAt := sampleEnv.clock 0 }
    ∧ (PaymentRepository.Create (some 1) sampleEnv).2.repo.m 2 = some 1
    ∧ sampleEnv.repo.m 2 = none
    ∧ (∃ p, (PaymentRepository.Find 1 sampleEnv).1 = .ret (some p) none)
    ∧ ¬ (∃ p, (PaymentRepository.Find 2 sampleEnv).1 = .ret (some p) none)
    ∧ ((PaymentRepository.Create (some 1) sampleEnv).2.payments 1).ID
        < ((PaymentRepository.Create (some 2)
            (repoRun [.Find 2] (PaymentRepository.Create (some 1) sampleEnv).2)).2.payments 2).ID
    ∧ (PaymentRepository.Create (some 1) sampleEnv).2.record 1 = sampleEnv.record 1
    ∧ (∀ (k : Int) (p : Payment), sampleEnv.record k = some p → p.ID = k) :=
  ⟨(Create_assigns_increasing_ids repoTestEnv sampleCalls 1 sampleEnv rfl rfl).1,
   (Create_assigns_increasing_ids repoTestEnv sampleCalls 1 sampleEnv rfl rfl).2.1,
   (Create_assigns_increasing_ids repoTestEnv sampleCalls 1 sampleEnv rfl rfl).2.2.1,
   (Create_assigns_increasing_ids repoTestEnv sampleCalls 1 sampleEnv rfl rfl).2.2.2.1,
   ((Create_assigns_increasing_ids repoTestEnv sampleCalls 1 sampleEnv rfl
      rfl).2.2.2.2.2.2.2.1 1).2 ⟨by decide, by decide⟩,
   fun h => absurd (((Create_assigns_increasing_ids repoTestEnv sampleCalls 1 sampleEnv rfl
      rfl).2.2.2.2.2.2.2.1 2).1 h).2 (by decide),
   (Create_assigns_increasing_ids repoTestEnv sampleCalls 1 sampleEnv rfl
      rfl).2.2.2.2.2.2.2.2.1 [.Find 2] 2,
   (Create_assigns_increasing_ids repoTestEnv sampleCalls 1 sampleEnv rfl
      rfl).2.2.2.2.2.2.2.2.2.1 (by decide) 1 (by decide),
   (Create_assigns_increasing_ids repoTestEnv sampleCalls 1 sampleEnv rfl
      rfl).2.2.2.2.2.2.2.2.2.2 (by decide)⟩

/-! ### C12: what `UpdateStatus` writes -/

/-- C12 fails as stated: `UpdateStatus` writes through the payment pointer and
through the charge pointer of that payment.  In the store where payments 1 and
2 point to one charge object, `UpdateStatus(1, "failed")` returns nil and the
record under key 2, whose charge had status "pending", has a charge with
status "failed".  In the store whose record 1 has a nil charge pointer,
`UpdateStatus(1, "failed")` panics, the status of record 1 being written. -/
theorem UpdateStatus_frame_counterexample :
    (PaymentRepository.UpdateStatus 1 StatusFailed afterSharedCreates.2).1 = .ret none
    ∧ (afterSharedCreates.2.record 2).map (fun p => p.OmiseCharge.map (fun oc => oc.Status))
        = some (some StatusPending)
    ∧ ((PaymentRepository.UpdateStatus 1 StatusFailed afterSharedCreates.2).2.record 2).map
        (fun p => p.OmiseCharge.map (fun oc => oc.Status)) = some (some StatusFailed)
    ∧ (PaymentRepository.UpdateStatus 1 StatusFailed afterSharedCreates.2).2.record 2
        ≠ afterSharedCreates.2.record 2
    ∧ (afterChargelessCreate.record 1).map (fun p => (p.Status, p.OmiseCharge)) = some ("", none)
    ∧ (PaymentRepository.UpdateStatus 1 StatusFailed afterChargelessCreate).1 = .panic
    ∧ ((PaymentRepository.UpdateStatus 1 StatusFailed afterChargelessCreate).2.record 1).map
        (fun p => p.Status) = some StatusFailed := by
  refine ⟨by decide, by decide, by decide, by decide, by decide, by decide, by decide⟩

/-- C12, amended: `UpdateStatus(id, status)` of the in-memory store.  When a
record is stored under `id` and has a charge, the call returns nil; afterwards
the record under `id` has `Status = status`, its charge has `Status = status`,
its `UpdatedAt` is the reading of the clock, and its `ID`, `Amount`,
`Currency`, `CreatedAt` and the other six attributes of the charge are as
before; the call writes to that payment object and that charge object alone,
so every record that is another payment object and has another charge object,
or none, is unchanged; the map and the id counter are unchanged.  When no
record is stored under `id`, the call returns `ErrPaymentNotFound` and leaves
the store, the objects and the clock as they were.  In every state the service
reaches, every stored record has a charge, and when the gateway client
allocates a new charge object for every charge and writes to none afterwards,
every other record is unchanged. -/
theorem UpdateStatus_frame (e : Env) (id : Int) (status : Status) :
    (∀ (a b : Ref), e.repo.m id = some a → (e.payments a).OmiseCharge = some b →
        (PaymentRepository.UpdateStatus id status e).1 = .ret none
        ∧ (∃ (q : Payment) (qc : OmiseCharge),
            (PaymentRepository.UpdateStatus id status e).2.record id = some q
            ∧ q.OmiseCharge = some qc
            ∧ q.Status = status ∧ qc.Status = status ∧ q.UpdatedAt = e.clock 0
            ∧ q.ID = (e.payments a).ID ∧ q.Amount = (e.payments a).Amount
            ∧ q.Currency = (e.payments a).Currency ∧ q.CreatedAt = (e.payments a).CreatedAt
            ∧ qc.ID = (e.charges.cells b).ID ∧ qc.Amount = (e.charges.cells b).Amount
            ∧ qc.Currency = (e.charges.cells b).Currency
            ∧ qc.AuthorizeURI = (e.charges.cells b).AuthorizeURI
            ∧ qc.SourceType = (e.charges.cells b).SourceType
            ∧ qc.ReturnURI = (e.charges.cells b).ReturnURI)
        ∧ (∀ x : Ref, x ≠ a →
            (PaymentRepository.UpdateStatus id status e).2.payments x = e.payments x)
        ∧ (∀ y : Ref, y ≠ b →
            (PaymentRepository.UpdateStatus id status e).2.charges.cells y = e.charges.cells y)
        ∧ (∀ (k : Int) (a2 : Ref), e.repo.m k = some a2 → a2 ≠ a →
            (e.payments a2).OmiseCharge ≠ some b →
            (PaymentRepository.UpdateStatus id status e).2.record k = e.record k)
        ∧ (PaymentRepository.UpdateStatus id status e).2.repo = e.repo)
    ∧ (e.repo.m id = none →
        PaymentRepository.UpdateStatus id status e = (.ret (some ErrPaymentNotFound), e))
    ∧ (∀ (κ : Type) (c : PtrClient κ) (k : κ), Reachable c (k, e) →
        (∀ a : Ref, e.repo.m id = some a → ∃ b : Ref, (e.payments a).OmiseCharge = some b)
        ∧ (FreshClient c → ∀ j : Int, j ≠ id →
            (PaymentRepository.UpdateStatus id status e).2.record j = e.record j)) := by
  have hother : ∀ (a b : Ref) (k : Int) (a2 : Ref), e.repo.m k = some a2 → a2 ≠ a →
      (e.payments a2).OmiseCharge ≠ some b → (e.updated a b status).record k = e.record k := by
    intro a b k a2 hk ha hb
    have hk2 : (e.updated a b status).repo.m k = some a2 := hk
    simp only [Env.record, hk, hk2, Option.map_some', Option.some.injEq]
    cases hc : (e.payments a2).OmiseCharge with
    | none => simp [Env.payment, Env.updated, ha, hc]
    | some b2 =>
      have hbb : b2 ≠ b := by
        intro hcon
        rw [hcon] at hc
        exact hb hc
      simp [Env.payment, Env.updated, ha, hc, hbb]
  refine ⟨?_, ?_, ?_⟩
  · intro a b hm hoc
    rw [inmem_UpdateStatus_some id status e a b hm hoc]
    refine ⟨rfl, ⟨(e.updated a b status).payment a, { e.charges.cells b with Status := status },
      ?_, ?_, ?_, rfl, ?_, ?_, ?_, ?_, ?_, rfl, rfl, rfl, rfl, rfl, rfl⟩, ?_, ?_, ?_, rfl⟩
    · have hm2 : (e.updated a b status).repo.m id = some a := hm
      simp [Env.record, hm2]
    · simp [Env.payment, Env.updated, hoc]
    · simp [Env.payment, Env.updated]
    · simp [Env.payment, Env.updated]
    · simp [Env.payment, Env.updated]
    · simp [Env.payment, Env.updated]
    · simp [Env.payment, Env.updated]
    · simp [Env.payment, Env.updated]
    · intro x hx
      simp [Env.updated, hx]
    · intro y hy
      simp [Env.updated, hy]
    · intro k a2 hk ha hb
      exact hother a b k a2 hk ha hb
  · intro hm
    exact inmem_UpdateStatus_none id status e hm
  · intro κ c k hreach
    have hb := BaseInv_of_Reachable c (k, e) hreach
    refine ⟨?_, ?_⟩
    · intro a hm
      obtain ⟨_, _, _, _, b, hbc⟩ := hb.2.2 id a hm
      exact ⟨b, hbc⟩
    · intro hfresh j hj
      have hf := FreshInv_of_Reachable c hfresh (k, e) hreach
      cases hm : e.repo.m id with
      | none => rw [inmem_UpdateStatus_none id status e hm]
      | some a =>
        obtain ⟨_, _, _, _, b, hbc⟩ := hb.2.2 id a hm
        rw [inmem_UpdateStatus_some id status e a b hm hbc]
        cases hmj : e.repo.m j with
        | none =>
          have hmj2 : (e.updated a b status).repo.m j = none := hmj
          simp [Env.record, hmj, hmj2]
        | some a2 =>
          have ha : a2 ≠ a := by
            intro hcon
            rw [hcon] at hmj
            exact hj (hf.2 j id a a b hmj hm hbc hbc)
          have hbb : (e.payments a2).OmiseCharge ≠ some b := by
            intro hcon
            exact hj (hf.2 j id a2 a b hmj hm hcon hbc)
          exact hother a b j a2 hmj ha hbb

/-- Witness of C12 amended: on the store that holds payment 1, pending, with
its charge: `UpdateStatus(1, "failed")` returns nil, record 1 and its charge
have status "failed", and the map and the counter are as before;
`UpdateStatus(42, "failed")` returns `ErrPaymentNotFound` and changes nothing.
On the store where payments 1 and 2 have payment objects and charge objects of
their own, `UpdateStatus(1, "failed")` leaves record 2 as it was. -/
theorem UpdateStatus_frame_witness :
    ((PaymentRepository.UpdateStatus 1 StatusFailed afterCreate.2).1 = .ret none
      ∧ (∃ (q : Payment) (qc : OmiseCharge),
          (PaymentRepository.UpdateStatus 1 StatusFailed afterCreate.2).2.record 1 = some q
          ∧ q.OmiseCharge = some qc
          ∧ q.Status = StatusFailed ∧ qc.Status = StatusFailed
          ∧ q.UpdatedAt = afterCreate.2.clock 0
          ∧ q.ID = 1 ∧ q.Amount = 20000 ∧ q.Currency = "THB" ∧ q.CreatedAt = testNow
          ∧ qc.ID = "charge-1" ∧ qc.Amount = 20000 ∧ qc.Currency = "THB"
          ∧ qc.AuthorizeURI = "http://authuri.com" ∧ qc.SourceType = "internet_banking_scb"
          ∧ qc.ReturnURI = "http://returnuri.com")
      ∧ (PaymentRepository.UpdateStatus 1 StatusFailed afterCreate.2).2.repo = afterCreate.2.repo)
    ∧ PaymentRepository.UpdateStatus 42 StatusFailed afterCreate.2
        = (.ret (some ErrPaymentNotFound), afterCreate.2)
    ∧ (PaymentRepository.UpdateStatus 1 StatusFailed
          (repoRun [.Create 0, .Create 1] repoTestEnv)).2.record 2
        = (repoRun [.Create 0, .Create 1] repoTestEnv).record 2 :=
  ⟨⟨((UpdateStatus_frame afterCreate.2 1 StatusFailed).1 0 0 rfl rfl).1,
    ((UpdateStatus_frame afterCreate.2 1 StatusFailed).1 0 0 rfl rfl).2.1,
    ((UpdateStatus_frame afterCreate.2 1 StatusFailed).1 0 0 rfl rfl).2.2.2.2.2⟩,
   (UpdateStatus_frame afterCreate.2 42 StatusFailed).2.1 rfl,
   ((UpdateStatus_frame (repoRun [.Create 0, .Create 1] repoTestEnv) 1 StatusFailed).1 0 0
      rfl rfl).2.2.2.2.1 2 1 rfl (by decide) (by decide)⟩

end Paymentsvc
